import Mathlib

/-!
Verification of the CodeLandscapeViewer analyzer core (backend/analyzer/*.py)
via a shallow embedding in Lean.

Strings are modelled with Lean `String` (a structure over `List Char`), and
the Python string operations used by the analyzer (split, join, startswith,
endswith, replace, lower/upper, substring containment) are re-implemented
structurally on the character list so that every definition evaluates inside
the kernel.  Python dicts are modelled as association lists with
insert-or-overwrite (`setKey`, keeping the original position as CPython does)
and `setdefault` (`setDefault`).  File reading, AST parsing and regex matching
are the embedding boundary: analyzers receive the already-extracted match
data as explicit inputs, and everything downstream of that boundary is
translated from the source.
-/

/-! ## Character / string helpers (Python string semantics) -/

/-- Python-style `s.split(sep)` for a single-character separator:
`"".split(".") = [""]`, `"a..b".split(".") = ["a","","b"]`. -/
def chSplit (sep : Char) : List Char → List (List Char)
  | [] => [[]]
  | c :: cs =>
      let r := chSplit sep cs
      if c = sep then [] :: r
      else
        match r with
        | h :: t => (c :: h) :: t
        | [] => [[c]]

/-- Python-style `sep.join(groups)` for a single-character separator. -/
def chJoin (sep : Char) : List (List Char) → List Char
  | [] => []
  | [x] => x
  | x :: y :: t => x ++ sep :: chJoin sep (y :: t)

def strSplitOn (sep : Char) (s : String) : List String :=
  (chSplit sep s.data).map String.mk

def strJoin (sep : Char) (l : List String) : String :=
  String.mk (chJoin sep (l.map String.data))

def strStartsWith (p s : String) : Bool :=
  p.data.isPrefixOf s.data

def strEndsWith (p s : String) : Bool :=
  p.data.isSuffixOf s.data

/-- Python `s[:-n]` for `n ≤ len(s)`: drop the last `n` characters. -/
def strDropRight (n : Nat) (s : String) : String :=
  String.mk (s.data.take (s.data.length - n))

/-- Python `s[n:]`: drop the first `n` characters. -/
def strDrop (n : Nat) (s : String) : String :=
  String.mk (s.data.drop n)

/-- Single-character `s.replace(a, b)`. -/
def charReplace (a b : Char) (s : String) : String :=
  String.mk (s.data.map (fun c => if c = a then b else c))

def asciiLowerChar (c : Char) : Char :=
  if 'A' ≤ c ∧ c ≤ 'Z' then Char.ofNat (c.toNat + 32) else c

def asciiUpperChar (c : Char) : Char :=
  if 'a' ≤ c ∧ c ≤ 'z' then Char.ofNat (c.toNat - 32) else c

/-- Python `s.lower()` (ASCII range; analyzer inputs are identifiers/paths). -/
def strLower (s : String) : String :=
  String.mk (s.data.map asciiLowerChar)

/-- Python `s.upper()` (ASCII range). -/
def strUpper (s : String) : String :=
  String.mk (s.data.map asciiUpperChar)

/-- Python `p in s` substring containment. -/
def containsSub (p s : String) : Bool :=
  (s.data.tails).any (fun t => p.data.isPrefixOf t)

/-- Non-overlapping left-to-right `s.replace(pat, repl)`, fuel-indexed so the
definition is structural (fuel is instantiated with the string length). -/
def replaceAux (pat repl : List Char) : Nat → List Char → List Char
  | _, [] => []
  | 0, l => l
  | fuel + 1, c :: cs =>
      if pat ≠ [] && pat.isPrefixOf (c :: cs) then
        repl ++ replaceAux pat repl fuel ((c :: cs).drop pat.length)
      else
        c :: replaceAux pat repl fuel cs

def strReplaceAll (pat repl s : String) : String :=
  String.mk (replaceAux pat.data repl.data s.data.length s.data)

/-- Characters of `s[:k].count("\n")`, for line numbers from match offsets. -/
def countNewlines (s : String) (k : Nat) : Nat :=
  (s.data.take k).countP (fun c => c = '\n')

/-! ## Association-list model of Python dicts -/

/-- Dict lookup: value stored under `k`, first (and only) occurrence. -/
def lk {β : Type} (m : List (String × β)) (k : String) : Option β :=
  match m with
  | [] => none
  | (k', v) :: t => if k = k' then some v else lk t k

/-- Python `d[k] = v`: overwrite in place keeping the original position,
append when absent. -/
def setKey {β : Type} (m : List (String × β)) (k : String) (v : β) :
    List (String × β) :=
  match m with
  | [] => [(k, v)]
  | (k', v') :: t => if k' = k then (k, v) :: t else (k', v') :: setKey t k v

/-- Python `d.setdefault(k, v)`: insert only when absent. -/
def setDefault {β : Type} (m : List (String × β)) (k : String) (v : β) :
    List (String × β) :=
  if (lk m k).isSome then m else m ++ [(k, v)]

/-! ## Graph data model (src/backend/analyzer/graph.py) -/

/-- Metadata values occurring in the analyzers' `metadata` dicts:
strings, booleans, lists of strings, and Python `None`. -/
inductive MetaVal where
  | str (v : String)
  | boolean (v : Bool)
  | strs (v : List String)
  | nil
deriving DecidableEq, Repr

abbrev Meta := List (String × MetaVal)

/-- `Node` dataclass (graph.py). -/
structure Node where
  id : String
  label : String
  type : String
  file_path : String := ""
  line_number : Nat := 0
  metadata : Meta := []
deriving DecidableEq, Repr

/-- `Edge` dataclass (graph.py). -/
structure Edge where
  source : String
  target : String
  type : String
  metadata : Meta := []
deriving DecidableEq, Repr

/-- `Graph`: `nodes` is a dict id → Node (insertion-ordered association
list), `edges` a list. -/
structure Graph where
  nodes : List (String × Node) := []
  edges : List Edge := []
deriving DecidableEq, Repr

/-- `Graph.add_node`: insert iff the id is absent. -/
def Graph.add_node (g : Graph) (n : Node) : Graph :=
  if (lk g.nodes n.id).isSome then g
  else { g with nodes := g.nodes ++ [(n.id, n)] }

/-- `Graph.add_edge`: append only when both endpoints are present. -/
def Graph.add_edge (g : Graph) (e : Edge) : Graph :=
  if (lk g.nodes e.source).isSome && (lk g.nodes e.target).isSome then
    { g with edges := g.edges ++ [e] }
  else g

/-- `Graph.add_edge_deferred`: append without validating node existence. -/
def Graph.add_edge_deferred (g : Graph) (e : Edge) : Graph :=
  { g with edges := g.edges ++ [e] }

/-- The `(source, target, type)` dedup key used by `resolve_edges`. -/
def edgeKey (e : Edge) : String × String × String :=
  (e.source, e.target, e.type)

/-- Membership of a dedup key in the `seen` set. -/
def keySeen (k : String × String × String)
    (seen : List (String × String × String)) : Bool :=
  seen.any (fun x => decide (x = k))

/-- The loop body of `Graph.resolve_edges`: keep an edge iff both endpoints
are node ids and its key was not already seen. -/
def resolveLoop (ids : List String) : List Edge →
    List (String × String × String) → List Edge
  | [], _ => []
  | e :: es, seen =>
      if ids.contains e.source && ids.contains e.target &&
          !(keySeen (edgeKey e) seen) then
        e :: resolveLoop ids es (edgeKey e :: seen)
      else
        resolveLoop ids es seen

/-- `Graph.resolve_edges`: drop edges with a missing endpoint and duplicate
`(source, target, type)` keys, first occurrence winning. -/
def Graph.resolve_edges (g : Graph) : Graph :=
  { g with edges := resolveLoop (g.nodes.map (fun p => p.1)) g.edges [] }

/-- The per-id bump of `Graph.to_dict`'s degree accumulation:
`node_degree[k] = node_degree.get(k, 0) + 1`. -/
def bumpDegree (m : List (String × Nat)) (k : String) : List (String × Nat) :=
  setKey m k ((lk m k).getD 0 + 1)

/-- `node_degree` as computed by `Graph.to_dict`: start every node id at 0,
then bump source and target for each edge. -/
def nodeDegreeMap (g : Graph) : List (String × Nat) :=
  g.edges.foldl (fun m e => bumpDegree (bumpDegree m e.source) e.target)
    (g.nodes.map (fun p => (p.1, 0)))

/-- The `degree` reported for a node id by `Graph.to_dict`
(`node_degree.get(nid, 0)`). -/
def Graph.degreeOf (g : Graph) (nid : String) : Nat :=
  (lk (nodeDegreeMap g) nid).getD 0


/-! ## Heuristic vocabularies (src/backend/analyzer/python_analyzer.py) -/

def ENDPOINT_DECORATORS : List String :=
  ["route", "get", "post", "put", "patch", "delete", "head", "options",
   "api_view", "action", "websocket"]

def ROUTER_PATTERNS : List String :=
  ["APIRouter", "Blueprint", "Router", "Namespace", "DefaultRouter",
   "SimpleRouter"]

def MODEL_BASES : List String :=
  ["Model", "models.Model", "db.Model", "Base", "Document",
   "EmbeddedDocument", "ModelBase"]

def TASK_DECORATORS : List String :=
  ["task", "shared_task", "periodic_task", "job", "background_task"]

def DB_READ_METHODS : List String :=
  ["filter", "get", "all", "first", "last", "count", "exists", "aggregate",
   "values", "values_list", "select_related", "prefetch_related", "annotate",
   "order_by", "distinct", "exclude", "find", "find_one", "find_many",
   "query", "execute", "fetchone", "fetchall", "fetchmany", "select", "where"]

def DB_WRITE_METHODS : List String :=
  ["save", "create", "update", "delete", "bulk_create", "bulk_update",
   "insert", "insert_one", "insert_many", "update_one", "update_many",
   "delete_one", "delete_many", "commit", "add", "merge", "flush",
   "put_item", "delete_item"]

def API_CALL_NAMES : List String :=
  ["get", "post", "put", "patch", "delete", "head", "options", "request",
   "fetch", "urlopen"]

def API_CALL_MODULES : List String :=
  ["requests", "httpx", "aiohttp", "urllib"]

def HTTP_VERBS : List String :=
  ["get", "post", "put", "patch", "delete", "head", "options"]

/-! ## Abstract per-file extraction data

The file-read / `ast.parse` / regex-match steps are the embedding boundary:
each analyzer receives the already-extracted syntactic facts it walks over.
-/

/-- A function definition found inside a class body (`ast.walk` over the
class): name, rendered decorator names, line number. -/
structure PyMethod where
  name : String
  decorators : List String
  lineno : Nat
deriving DecidableEq, Repr

/-- A `ClassDef` found by `ast.walk(tree)`: name, rendered base names,
rendered decorator names, line number, and the function defs in its body. -/
structure PyClass where
  name : String
  bases : List String
  decorators : List String
  lineno : Nat
  methods : List PyMethod
deriving DecidableEq, Repr

/-- A top-level function/async-function (`ast.iter_child_nodes`). -/
structure PyFunc where
  name : String
  decorators : List String
  isAsync : Bool
  lineno : Nat
deriving DecidableEq, Repr

/-- A call expression as classified by `_extract_calls`: either
`object.method(...)` (attribute call; `obj` is `""` when the receiver is not
a plain name) or a bare `f(...)` call. -/
inductive PyCall where
  | attr (method : String) (obj : String)
  | bare (funcName : String)
deriving DecidableEq, Repr

/-- The parse result of one rich-language file. -/
structure PyModule where
  classes : List PyClass
  functions : List PyFunc
  imports : List String
  calls : List PyCall
deriving DecidableEq, Repr

/-- One match of the route-registration regex `RE_EXPRESS_ROUTE`:
captured verb and path, and the match's character offset. -/
structure RouteMatch where
  verb : String
  path : String
  start : Nat
deriving DecidableEq, Repr

/-- One match of `RE_CLASS_DECL`: name, optional base, offset. -/
structure JsClassMatch where
  name : String
  base : Option String
  start : Nat
deriving DecidableEq, Repr

/-- One match of a name-capturing regex (function/arrow/model): name and
offset. -/
structure JsNameMatch where
  name : String
  start : Nat
deriving DecidableEq, Repr

/-- The regex-extraction results for one script-language file. -/
structure JsData where
  source : String := ""
  routes : List RouteMatch := []
  classMatches : List JsClassMatch := []
  funcMatches : List JsNameMatch := []
  arrowMatches : List JsNameMatch := []
  modelMatches : List JsNameMatch := []
  importTargets : List String := []
  hasApiCall : Bool := false
  hasDbRead : Bool := false
  hasDbWrite : Bool := false
  hasRouterInit : Bool := false
deriving DecidableEq, Repr

/-- A file descriptor produced by discovery (`collect_files`), together with
the abstract extraction payloads for the dedicated analyzers.  `pyMod` is
`none` when reading or parsing the file fails. -/
structure FileData where
  rel_path : String
  name : String
  ext : String
  pyMod : Option PyModule := none
  jsData : JsData := {}
  genImports : List String := []
deriving DecidableEq, Repr

/-! ## Path helpers (pathlib semantics on posix-relative paths) -/

/-- `PurePosixPath` parts of a relative path: split on `/`, drop empty and
`"."` components (pathlib keeps `".."`). -/
def normParts (s : String) : List String :=
  (strSplitOn '/' s).filter (fun c => !(c == "") && !(c == "."))

/-- `str(PurePosixPath(...))` of a normalized component list (`"."` for the
empty path). -/
def pathStr (parts : List String) : String :=
  if parts.isEmpty then "." else strJoin '/' parts

/-- `PurePath.stem` of a bare filename: the name without its last suffix
(`"a.b.c" -> "a.b"`, `".env" -> ".env"`, `"foo." -> "foo."`). -/
def pyStem (name : String) : String :=
  match (name.data.reverse).findIdx? (fun c => c = '.') with
  | none => name
  | some ri =>
      let i := name.data.length - 1 - ri
      if 0 < i ∧ i < name.data.length - 1 then String.mk (name.data.take i)
      else name

/-- `Path(rel).name`: the last path component. -/
def pathName (rel : String) : String :=
  (normParts rel).getLastD ""

/-! ## Rich-language AST extractor (python_analyzer.py) -/

/-- `_guess_http_method`: first decorator whose lowercase form is an HTTP
verb, uppercased; default `"GET"`. -/
def guessHttpMethod (decorators : List String) : String :=
  match decorators.find? (fun d => HTTP_VERBS.contains (strLower d)) with
  | some d => strUpper (strLower d)
  | none => "GET"

/-- Class node type priority in `_extract_classes`. -/
def pyClassNodeType (c : PyClass) : String :=
  if c.bases.any (fun b => MODEL_BASES.contains b) then "model"
  else if (c.name :: c.bases).any (fun x => ROUTER_PATTERNS.contains x) then
    "router"
  else if containsSub "service" (strLower c.name) then "service"
  else if containsSub "middleware" (strLower c.name) then "middleware"
  else if containsSub "util" (strLower c.name) ||
      containsSub "helper" (strLower c.name) then "utility"
  else "class"

/-- Processing of one `ClassDef` in `_extract_classes`. -/
def pyExtractClassOne (rel fid : String) (c : PyClass) (g : Graph) : Graph :=
  let class_id := "class:" ++ rel ++ ":" ++ c.name
  let g := g.add_node
    { id := class_id, label := c.name, type := pyClassNodeType c,
      file_path := rel, line_number := c.lineno,
      metadata := [("bases", .strs c.bases), ("decorators", .strs c.decorators)] }
  let g := g.add_edge { source := fid, target := class_id, type := "uses" }
  let g := c.bases.foldl (fun g base =>
    if ["object", "type", "ABC", "Exception"].contains base then g
    else
      let inherit_id := "class_ref:" ++ base
      let g := g.add_node
        { id := inherit_id, label := base, type := "class", file_path := "",
          metadata := [("external_ref", .boolean true)] }
      g.add_edge_deferred
        { source := class_id, target := inherit_id, type := "inherits" }) g
  c.methods.foldl (fun g m =>
    if m.decorators.any (fun d => ENDPOINT_DECORATORS.contains d) then
      let ep_id := "endpoint:" ++ rel ++ ":" ++ c.name ++ "." ++ m.name
      let g := g.add_node
        { id := ep_id, label := c.name ++ "." ++ m.name, type := "endpoint",
          file_path := rel, line_number := m.lineno,
          metadata := [("method", .str (guessHttpMethod m.decorators))] }
      g.add_edge { source := class_id, target := ep_id, type := "endpoint_handler" }
    else g) g

def pyExtractClasses (rel fid : String) (cs : List PyClass) (g : Graph) :
    Graph :=
  cs.foldl (fun g c => pyExtractClassOne rel fid c g) g

/-- `_extract_functions` over the top-level functions. -/
def pyExtractFunctions (rel fid : String) (fs : List PyFunc) (g : Graph) :
    Graph :=
  fs.foldl (fun g f =>
    let func_id := "func:" ++ rel ++ ":" ++ f.name
    let node_type :=
      if f.decorators.any (fun d => ENDPOINT_DECORATORS.contains d) then
        "endpoint"
      else if f.decorators.any (fun d => TASK_DECORATORS.contains d) then
        "task"
      else if containsSub "middleware" (strLower f.name) then "middleware"
      else "function"
    let g := g.add_node
      { id := func_id, label := f.name, type := node_type, file_path := rel,
        line_number := f.lineno,
        metadata := [("decorators", .strs f.decorators),
                     ("is_async", .boolean f.isAsync)] }
    let g := g.add_edge { source := fid, target := func_id, type := "uses" }
    if node_type == "endpoint" then
      g.add_edge { source := fid, target := func_id, type := "endpoint_handler" }
    else g) g

/-- `_extract_imports`: one deferred `imports` edge per import target. -/
def pyExtractImports (fid : String) (imports : List String) (g : Graph) :
    Graph :=
  imports.foldl (fun g m =>
    g.add_edge_deferred
      { source := fid, target := "module:" ++ m, type := "imports" }) g

/-- `_extract_calls`: deferred self-loop `db_read`/`db_write`/`api_call`
edges from call-site heuristics. -/
def pyExtractCalls (fid : String) (calls : List PyCall) (g : Graph) : Graph :=
  calls.foldl (fun g c =>
    match c with
    | .attr method obj =>
        let g :=
          if DB_READ_METHODS.contains method then
            g.add_edge_deferred
              { source := fid, target := fid, type := "db_read",
                metadata := [("method", .str method), ("object", .str obj)] }
          else if DB_WRITE_METHODS.contains method then
            g.add_edge_deferred
              { source := fid, target := fid, type := "db_write",
                metadata := [("method", .str method), ("object", .str obj)] }
          else g
        if API_CALL_MODULES.contains obj && API_CALL_NAMES.contains method then
          g.add_edge_deferred
            { source := fid, target := fid, type := "api_call",
              metadata := [("method", .str method), ("module", .str obj)] }
        else g
    | .bare f =>
        if f == "fetch" || f == "urlopen" then
          g.add_edge_deferred
            { source := fid, target := fid, type := "api_call",
              metadata := [("function", .str f)] }
        else g) g

/-- `PythonAnalyzer.analyze_file`: on read/parse failure (`pyMod = none`)
return with the graph untouched; otherwise run the four extraction passes. -/
def python_analyze_file (f : FileData) (g : Graph) : Graph :=
  match f.pyMod with
  | none => g
  | some m =>
      let fid := "file:" ++ f.rel_path
      let g := pyExtractClasses f.rel_path fid m.classes g
      let g := pyExtractFunctions f.rel_path fid m.functions g
      let g := pyExtractImports fid m.imports g
      pyExtractCalls fid m.calls g

/-! ## Rich-language import resolver (PythonAnalyzer.resolve_imports) -/

/-- Dotted module path of a file: slashes to dots, strip a `.py` suffix,
strip a `.__init__` suffix. -/
def moduleOfRel (rel : String) : String :=
  let m := charReplace '\x5c' '.' (charReplace '/' '.' rel)
  let m := if strEndsWith ".py" m then strDropRight 3 m else m
  if strEndsWith ".__init__" m then strDropRight 9 m else m

/-- Build `module_map` (dict assignment, later file overwrites) and
`suffix_map` (`setdefault`, first writer wins) from the python file list. -/
def pyBuildMaps (files : List FileData) :
    List (String × String) × List (String × String) :=
  files.foldl (fun maps f =>
    let mod := moduleOfRel f.rel_path
    let fid := "file:" ++ f.rel_path
    let mm := setKey maps.1 mod fid
    let parts := strSplitOn '.' mod
    let sm := (List.range parts.length).foldl (fun sm i =>
        setDefault sm (strJoin '.' (parts.drop (parts.length - (i + 1)))) fid)
      maps.2
    (mm, sm)) ([], [])

/-- The `for i in range(len(parts), 0, -1)` prefix loop of
`resolve_imports`: check each dotted prefix against the module map and then
the suffix map, first hit wins, otherwise keep the original target. -/
def prefixLoop (mm sm : List (String × String)) (parts : List String) :
    Nat → String → String
  | 0, orig => orig
  | i + 1, orig =>
      let pre := strJoin '.' (parts.take (i + 1))
      match lk mm pre with
      | some fid => fid
      | none =>
          match lk sm pre with
          | some fid => fid
          | none => prefixLoop mm sm parts i orig

/-- Per-edge target resolution of `PythonAnalyzer.resolve_imports`. -/
def pyResolveTarget (mm sm : List (String × String)) (target : String) :
    String :=
  let mod_name := strDrop 7 target
  match lk mm mod_name with
  | some fid => fid
  | none =>
      match lk sm mod_name with
      | some fid => fid
      | none =>
          prefixLoop mm sm (strSplitOn '.' mod_name)
            (strSplitOn '.' mod_name).length target

/-- `PythonAnalyzer.resolve_imports`: rewrite each `imports` edge whose
target is a `module:` placeholder, in place. -/
def py_resolve_imports (files : List FileData) (g : Graph) : Graph :=
  let maps := pyBuildMaps files
  { g with
    edges := g.edges.map (fun e =>
      if e.type == "imports" && strStartsWith "module:" e.target then
        { e with target := pyResolveTarget maps.1 maps.2 e.target }
      else e) }

/-- Module-map lookup then suffix-map lookup for one candidate key. -/
def lookup2 (mm sm : List (String × String)) (k : String) : Option String :=
  match lk mm k with
  | some v => some v
  | none => lk sm k

/-- First candidate key that hits either map. -/
def firstHit (mm sm : List (String × String)) : List String → Option String
  | [] => none
  | k :: ks =>
      match lookup2 mm sm k with
      | some v => some v
      | none => firstHit mm sm ks

/-- The strictly shorter dotted prefixes of the module path, longest to
shortest. -/
def specPrefixKeys (parts : List String) : List String :=
  ((List.range (parts.length - 1)).reverse).map
    (fun i => strJoin '.' (parts.take (i + 1)))

/-- The resolution sequence as the spec words it: exact match in the module
map, then the suffix map, then progressively shorter dotted prefixes
(longest to shortest), each against the module map and then the suffix map;
no hit leaves the target unchanged. -/
def specResolveTarget (mm sm : List (String × String)) (target : String) :
    String :=
  let mod := strDrop 7 target
  match firstHit mm sm (mod :: specPrefixKeys (strSplitOn '.' mod)) with
  | some fid => fid
  | none => target

/-- `resolve_imports` as the spec words it: for each deferred `imports`
edge whose target is a `module:` placeholder, rewrite the target in place
with the first hit of the spec's candidate sequence (`specResolveTarget`);
no hit leaves the placeholder. -/
def spec_resolve_imports (files : List FileData) (g : Graph) : Graph :=
  let maps := pyBuildMaps files
  { g with
    edges := g.edges.map (fun e =>
      if e.type == "imports" && strStartsWith "module:" e.target then
        { e with target := specResolveTarget maps.1 maps.2 e.target }
      else e) }

/-! ## Script-language regex extractor (js_analyzer.py) -/

/-- `_line_of`: 1-based line of a match offset. -/
def lineOf (source : String) (start : Nat) : Nat :=
  countNewlines source start + 1

/-- Endpoint node id built by `_extract_routes`. -/
def epIdOf (rel : String) (m : RouteMatch) : String :=
  "endpoint:" ++ rel ++ ":" ++ strUpper m.verb ++ ":" ++ m.path

/-- The node built by `_extract_routes` for one route match. -/
def routeNodeOf (rel source : String) (m : RouteMatch) : Node :=
  let method := strUpper m.verb
  { id := epIdOf rel m,
    label := if m.path == "" then method ++ " (middleware)"
             else method ++ " " ++ m.path,
    type := if method == "USE" then "middleware" else "endpoint",
    file_path := rel,
    line_number := lineOf source m.start,
    metadata := [("method", .str method), ("path", .str m.path)] }

/-- `JsAnalyzer._extract_routes`. -/
def js_extract_routes (rel fid source : String) (ms : List RouteMatch)
    (g : Graph) : Graph :=
  ms.foldl (fun g m =>
    let g := g.add_node (routeNodeOf rel source m)
    g.add_edge
      { source := fid, target := epIdOf rel m, type := "endpoint_handler" }) g

/-- Class node type priority in `_extract_functions_and_classes`. -/
def jsClassNodeType (name : String) : String :=
  let nl := strLower name
  if containsSub "component" nl || containsSub "view" nl then "component"
  else if containsSub "service" nl then "service"
  else if containsSub "middleware" nl then "middleware"
  else if containsSub "controller" nl || containsSub "router" nl then "router"
  else if containsSub "model" nl then "model"
  else "class"

/-- The class-declaration half of `_extract_functions_and_classes`,
threading the `seen_names` set. -/
def js_extract_classes (rel fid source : String) (cs : List JsClassMatch)
    (acc : Graph × List String) : Graph × List String :=
  cs.foldl (fun p c =>
    let class_id := "class:" ++ rel ++ ":" ++ c.name
    let g := p.1.add_node
      { id := class_id, label := c.name, type := jsClassNodeType c.name,
        file_path := rel, line_number := lineOf source c.start,
        metadata := [("extends",
          match c.base with | some b => .str b | none => .nil)] }
    let g := g.add_edge { source := fid, target := class_id, type := "uses" }
    let seen := c.name :: p.2
    match c.base with
    | some b =>
        let ref_id := "class_ref:" ++ b
        let g := g.add_node
          { id := ref_id, label := b, type := "class",
            metadata := [("external_ref", .boolean true)] }
        (g.add_edge_deferred
          { source := class_id, target := ref_id, type := "inherits" }, seen)
    | none => (g, seen)) acc

/-- Function node type priority in `_extract_functions_and_classes`. -/
def jsFuncNodeType (ext name : String) : String :=
  let nl := strLower name
  if containsSub "middleware" nl then "middleware"
  else if containsSub "handler" nl || containsSub "controller" nl then
    "endpoint"
  else if (name.data.headD 'a').isUpper && (ext == ".jsx" || ext == ".tsx")
    then "component"
  else "function"

/-- The function/arrow half of `_extract_functions_and_classes` for one
regex's match list, skipping names already seen. -/
def js_extract_funcs (rel fid ext source : String) (ms : List JsNameMatch)
    (acc : Graph × List String) : Graph × List String :=
  ms.foldl (fun p m =>
    if p.2.contains m.name then p
    else
      let func_id := "func:" ++ rel ++ ":" ++ m.name
      let g := p.1.add_node
        { id := func_id, label := m.name, type := jsFuncNodeType ext m.name,
          file_path := rel, line_number := lineOf source m.start }
      (g.add_edge { source := fid, target := func_id, type := "uses" },
       m.name :: p.2)) acc

/-- `_extract_models` for the concatenated mongoose/sequelize matches. -/
def js_extract_models (rel fid source : String) (ms : List JsNameMatch)
    (g : Graph) : Graph :=
  ms.foldl (fun g m =>
    let model_id := "model:" ++ rel ++ ":" ++ m.name
    let g := g.add_node
      { id := model_id, label := m.name, type := "model", file_path := rel,
        line_number := lineOf source m.start }
    g.add_edge { source := fid, target := model_id, type := "uses" }) g

/-- `_extract_imports`: one deferred `imports` edge per distinct captured
specifier (the Python `set` is modelled as the given list of distinct
targets). -/
def js_extract_imports (fid : String) (targets : List String) (g : Graph) :
    Graph :=
  targets.foldl (fun g t =>
    g.add_edge_deferred
      { source := fid, target := "module:" ++ t, type := "imports" }) g

/-- `_detect_router`. -/
def js_detect_router (rel fid : String) (g : Graph) : Graph :=
  let router_id := "router:" ++ rel
  let g := g.add_node
    { id := router_id, label := pyStem (pathName rel) ++ " (router)",
      type := "router", file_path := rel }
  g.add_edge { source := fid, target := router_id, type := "uses" }

/-- `JsAnalyzer.analyze_file`. -/
def js_analyze_file (f : FileData) (g : Graph) : Graph :=
  let fid := "file:" ++ f.rel_path
  let d := f.jsData
  let g := js_extract_routes f.rel_path fid d.source d.routes g
  let p := js_extract_classes f.rel_path fid d.source d.classMatches (g, [])
  let p := js_extract_funcs f.rel_path fid f.ext d.source d.funcMatches p
  let p := js_extract_funcs f.rel_path fid f.ext d.source d.arrowMatches p
  let g := js_extract_models f.rel_path fid d.source d.modelMatches p.1
  let g := js_extract_imports fid d.importTargets g
  let g := if d.hasApiCall then
      g.add_edge_deferred { source := fid, target := fid, type := "api_call" }
    else g
  let g := if d.hasDbRead then
      g.add_edge_deferred { source := fid, target := fid, type := "db_read" }
    else g
  let g := if d.hasDbWrite then
      g.add_edge_deferred { source := fid, target := fid, type := "db_write" }
    else g
  if d.hasRouterInit then js_detect_router f.rel_path fid g else g

/-! ## Script-language import resolver (JsAnalyzer.resolve_imports) -/

/-- Strip the first matching extension from the `stem` loop. -/
def stripFirstExt (s : String) : List String → String
  | [] => s
  | e :: es => if strEndsWith e s then strDropRight e.data.length s
               else stripFirstExt s es

/-- Build `file_paths`: stem, full relative path, and the `/index`-stripped
stem all map to the file id (dict assignment). -/
def js_build_file_paths (files : List FileData) : List (String × String) :=
  files.foldl (fun fp f =>
    let rel := f.rel_path
    let fid := "file:" ++ rel
    let stem := stripFirstExt rel [".js", ".jsx", ".ts", ".tsx", ".mjs", ".cjs"]
    let fp := setKey fp stem fid
    let fp := setKey fp rel fid
    if strEndsWith "/index" stem then setKey fp (strDropRight 6 stem) fid
    else fp) []

/-- The probe loop of `resolve_imports`.  Note the source computes
`resolved + ext.replace(".", "/")` (so `".js"` contributes `"/js"`), and
re-checks the bare `resolved` (already known absent) inside the loop. -/
def jsProbeLoop (fp : List (String × String)) (resolved : String) (e : Edge) :
    List String → Edge
  | [] => e
  | ext :: rest =>
      match lk fp (resolved ++ charReplace '.' '/' ext) with
      | some fid => { e with target := fid }
      | none =>
          match lk fp resolved with
          | some fid => { e with target := fid }
          | none => jsProbeLoop fp resolved e rest

/-- Per-edge rewriting of `JsAnalyzer.resolve_imports`.  The source's double
`str(Path(...))` normalization is idempotent, so one normalization is
applied. -/
def js_resolve_one (fp : List (String × String)) (e : Edge) : Edge :=
  if e.type == "imports" && strStartsWith "module:" e.target then
    let mod := strDrop 7 e.target
    if strStartsWith "." mod then
      let source_file := strReplaceAll "file:" "" e.source
      let source_dir0 := pathStr ((normParts source_file).dropLast)
      let source_dir := if source_dir0 == "." then "" else source_dir0
      let resolved := pathStr (normParts (source_dir ++ "/" ++ mod))
      match lk fp resolved with
      | some fid => { e with target := fid }
      | none => jsProbeLoop fp resolved e [".js", ".jsx", ".ts", ".tsx"]
    else e
  else e

/-- `JsAnalyzer.resolve_imports`. -/
def js_resolve_imports (files : List FileData) (g : Graph) : Graph :=
  { g with edges := g.edges.map (js_resolve_one (js_build_file_paths files)) }

/-! ## Generic extractor and path classifier (generic_analyzer.py) -/

def CONFIG_NAMES : List String :=
  ["config", "settings", "configuration", ".env", "env", "webpack", "babel",
   "eslint", "prettier", "tsconfig", "jest", "karma", "rollup", "vite",
   "next.config", "pyproject", "setup.cfg", "tox", "mypy", "flake8",
   "docker-compose", "dockerfile", "makefile", "cmake", "package.json",
   "cargo.toml", "go.mod", "gemfile", "pipfile", "poetry", "requirements"]

def CONFIG_EXTENSIONS : List String :=
  [".json", ".yaml", ".yml", ".toml", ".ini", ".cfg", ".env", ".conf",
   ".xml", ".properties"]

def TEST_PATTERNS : List String :=
  ["test", "tests", "spec", "specs", "__tests__", "test_", "_test"]

def ROUTE_DIR_PATTERNS : List String :=
  ["routes", "api", "endpoints", "views", "controllers"]

def MODEL_DIR_PATTERNS : List String := ["models", "entities", "schemas"]

def SERVICE_DIR_PATTERNS : List String :=
  ["services", "providers", "managers"]

def UTIL_DIR_PATTERNS : List String :=
  ["utils", "utilities", "helpers", "lib", "common", "shared"]

def MIDDLEWARE_DIR_PATTERNS : List String := ["middleware", "middlewares"]

/-- `_classify_by_path`. -/
def classify_by_path (rel name ext : String) : String :=
  let parts := (normParts rel).dropLast
  let stem := strLower (pyStem name)
  if parts.any (fun p => TEST_PATTERNS.contains (strLower p)) ||
      containsSub "test" stem || containsSub "spec" stem then "test"
  else if CONFIG_NAMES.contains stem || CONFIG_EXTENSIONS.contains ext then
    "config"
  else if parts.any (fun p => ROUTE_DIR_PATTERNS.contains (strLower p)) then
    "endpoint"
  else if parts.any (fun p => MODEL_DIR_PATTERNS.contains (strLower p)) then
    "model"
  else if parts.any (fun p => SERVICE_DIR_PATTERNS.contains (strLower p)) then
    "service"
  else if parts.any (fun p => UTIL_DIR_PATTERNS.contains (strLower p)) then
    "utility"
  else if parts.any (fun p => MIDDLEWARE_DIR_PATTERNS.contains (strLower p))
    then "middleware"
  else "file"

/-- The file node emitted by `GenericAnalyzer.analyze_file`. -/
def genericFileNode (f : FileData) : Node :=
  { id := "file:" ++ f.rel_path, label := f.name,
    type := classify_by_path f.rel_path f.name f.ext,
    file_path := f.rel_path,
    metadata := [("extension", .str f.ext)] }

/-- Extensions owned by the dedicated extractors. -/
def OWNED_EXTS : List String :=
  [".py", ".pyi", ".js", ".jsx", ".ts", ".tsx", ".mjs", ".cjs"]

/-- `GenericAnalyzer.analyze_file`: emit the file node, and for files not
owned by a dedicated extractor, one deferred `imports` edge per distinct
generic import target. -/
def generic_analyze_file (f : FileData) (g : Graph) : Graph :=
  let fid := "file:" ++ f.rel_path
  let g := g.add_node (genericFileNode f)
  if OWNED_EXTS.contains f.ext then g
  else
    f.genImports.foldl (fun g t =>
      g.add_edge_deferred
        { source := fid, target := "module:" ++ t, type := "imports" }) g

/-! ## Orchestrator (orchestrator.py, analyze_repo) -/

def PYTHON_EXTENSIONS : List String := [".py", ".pyi"]

def JS_EXTENSIONS : List String :=
  [".js", ".jsx", ".ts", ".tsx", ".mjs", ".cjs"]

/-- The graph built by `analyze_repo` just before the terminal
`graph.resolve_edges()` call: generic pass over every discovered file,
then the dedicated passes and per-language resolvers. -/
def analyze_repo_pre (files : List FileData) : Graph :=
  let python_files := files.filter (fun f => PYTHON_EXTENSIONS.contains f.ext)
  let js_files := files.filter (fun f => JS_EXTENSIONS.contains f.ext)
  let g := files.foldl (fun g f => generic_analyze_file f g) {}
  let g := if python_files.isEmpty then g
    else py_resolve_imports python_files
      (python_files.foldl (fun g f => python_analyze_file f g) g)
  if js_files.isEmpty then g
  else js_resolve_imports js_files
    (js_files.foldl (fun g f => js_analyze_file f g) g)

/-- `analyze_repo` on the discovered file list: the build phase followed by
the terminal `resolve_edges`.  (`to_dict` serializes the result without
changing nodes or edges.) -/
def analyze_repo (files : List FileData) : Graph :=
  (analyze_repo_pre files).resolve_edges

/-- All node ids of the graph avoid the `module:` placeholder prefix. -/
def NodesOk (g : Graph) : Prop :=
  ∀ k, (lk g.nodes k).isSome = true → strStartsWith "module:" k = false


/-- The HTTP/mount verbs matched by the route-registration regex. -/
def EXPRESS_ROUTE_VERBS : List String :=
  ["get", "post", "put", "patch", "delete", "all", "use", "head", "options"]

/-- The validated `endpoint_handler` edge emitted by `_extract_routes`. -/
def routeEdgeOf (rel : String) (m : RouteMatch) : Edge :=
  { source := "file:" ++ rel, target := epIdOf rel m,
    type := "endpoint_handler" }

/-- A rich-language file whose read/parse fails (`pyMod = none`). -/
def c6BadFile : FileData :=
  { rel_path := "bad.py", name := "bad.py", ext := ".py" }

/-- A rich-language file that parses. -/
def c6GoodFile : FileData :=
  { rel_path := "ok.py", name := "ok.py", ext := ".py",
    pyMod := some
      { classes :=
          [{ name := "UserService", bases := ["Base"], decorators := [],
             lineno := 1, methods := [] }],
        functions := [], imports := ["os"], calls := [] } }

/-- Starting graph for the C6 witness. -/
def c6Graph : Graph :=
  { nodes := [("file:ok.py",
      { id := "file:ok.py", label := "ok.py", type := "file" })] }

/-- Witness data for the route-extraction claim. -/
def c7M1 : RouteMatch := { verb := "get", path := "/a", start := 3 }

def c7Matches : List RouteMatch :=
  [c7M1, { verb := "get", path := "/a", start := 0 },
   { verb := "use", path := "", start := 0 }]

def c7Graph : Graph :=
  { nodes := [("file:r.js",
      { id := "file:r.js", label := "r.js", type := "file" })] }

/-- Repository for the C5/C9 witnesses: a script file importing a sibling
(resolvable) and an external package (unresolvable). -/
def c5Files : List FileData :=
  [{ rel_path := "a/x.js", name := "x.js", ext := ".js",
     jsData := { importTargets := ["./y", "express"] } },
   { rel_path := "a/y.js", name := "y.js", ext := ".js" }]

/-! # Theorems -/

/-- `chSplit` never returns the empty list. -/
theorem chSplit_ne_nil (sep : Char) (l : List Char) : chSplit sep l ≠ [] := by
  cases l with
  | nil => simp [chSplit]
  | cons c cs =>
      simp only [chSplit]
      cases h : chSplit sep cs with
      | nil => split <;> simp
      | cons h t => split <;> simp

/-- Splitting and re-joining with the same separator is the identity. -/
theorem chJoin_chSplit (sep : Char) (l : List Char) :
    chJoin sep (chSplit sep l) = l := by
  induction l with
  | nil => rfl
  | cons c cs ih =>
      simp only [chSplit]
      rcases h : chSplit sep cs with _ | ⟨h1, t1⟩
      · exact absurd h (chSplit_ne_nil sep cs)
      · rw [h] at ih
        by_cases hc : c = sep
        · simp [if_pos hc, chJoin, ih, hc]
        · simp only [if_neg hc]
          cases t1 with
          | nil => simpa [chJoin] using ih
          | cons h2 t2 => simpa [chJoin] using ih

theorem strJoin_strSplitOn (sep : Char) (s : String) :
    strJoin sep (strSplitOn sep s) = s := by
  cases s with
  | mk data =>
      simp only [strJoin, strSplitOn, List.map_map]
      rw [show (String.data ∘ String.mk) = id from rfl, List.map_id,
        chJoin_chSplit]

theorem lk_setKey {β : Type} (m : List (String × β)) (k k' : String) (v : β) :
    lk (setKey m k v) k' = if k' = k then some v else lk m k' := by
  induction m with
  | nil =>
      by_cases h : k' = k <;> simp [setKey, lk, h]
  | cons p t ih =>
      obtain ⟨a, b⟩ := p
      by_cases hak : a = k
      · subst hak
        by_cases h : k' = a <;> simp [setKey, lk, h]
      · by_cases h : k' = a
        · simp [setKey, lk, hak, h, fun hh : k' = k => hak (h.symm.trans hh)]
        · simp [setKey, lk, hak, h, ih]

theorem lk_append_single {β : Type} (m : List (String × β)) (k k' : String)
    (v : β) :
    lk (m ++ [(k, v)]) k' =
      match lk m k' with
      | some w => some w
      | none => if k' = k then some v else none := by
  induction m with
  | nil => by_cases h : k' = k <;> simp [lk, h]
  | cons p t ih =>
      obtain ⟨a, b⟩ := p
      by_cases h : k' = a <;> simp [lk, h, ih]

theorem lk_setDefault {β : Type} (m : List (String × β)) (k k' : String)
    (v : β) :
    lk (setDefault m k v) k' =
      match lk m k' with
      | some w => some w
      | none => if k' = k ∧ (lk m k).isNone then some v else none := by
  unfold setDefault
  by_cases hk : (lk m k).isSome
  · cases h : lk m k' with
    | some w => simp [hk, h]
    | none =>
        have hne : ¬ (lk m k).isNone := by
          cases hh : lk m k with
          | some w => simp
          | none => rw [hh] at hk; simp at hk
        simp only [if_pos hk, h]
        simp [hne]
  · rw [if_neg hk, lk_append_single]
    cases h : lk m k' with
    | some w => simp
    | none =>
        have hnone : (lk m k).isNone := by
          cases hh : lk m k with
          | some w => exact absurd (by simp [hh]) hk
          | none => simp
        by_cases hkk : k' = k <;> simp [hkk, hnone]


/-! ### Graph model lemmas -/

/-- A node id is present (`lk` hits) iff it occurs among the keys. -/
theorem lk_isSome_eq_contains (m : List (String × Node)) (k : String) :
    (lk m k).isSome = (m.map (fun p => p.1)).contains k := by
  induction m with
  | nil => simp [lk]
  | cons p t ih =>
      obtain ⟨a, b⟩ := p
      by_cases h : k = a <;> simp [lk, h, ih]

/-- `add_node` is a no-op when the id is already present. -/
theorem add_node_of_present (g : Graph) (n : Node)
    (h : (lk g.nodes n.id).isSome = true) : g.add_node n = g := by
  simp [Graph.add_node, h]

/-- `add_node` appends the entry when the id is absent. -/
theorem add_node_of_absent (g : Graph) (n : Node)
    (h : lk g.nodes n.id = none) :
    g.add_node n = { g with nodes := g.nodes ++ [(n.id, n)] } := by
  simp [Graph.add_node, h]

/-- After `add_node`, the inserted id is always present. -/
theorem lk_add_node_self (g : Graph) (n : Node) :
    (lk (g.add_node n).nodes n.id).isSome = true := by
  cases hl : lk g.nodes n.id with
  | some w =>
      rw [add_node_of_present g n (by simp [hl])]
      simp [hl]
  | none =>
      rw [add_node_of_absent g n hl]
      show (lk (g.nodes ++ [(n.id, n)]) n.id).isSome = true
      rw [lk_append_single, hl]
      simp

/-! ### C2: add_node semantics -/

/-- C2: `addNode` inserts the node iff its id is absent (appending exactly
one dict entry), is a no-op when the id is present (and, being a total
function, never raises), and a second insertion under an id already present
leaves the stored node — hence every one of its fields — unchanged. -/
theorem C2_add_node_first_wins (g : Graph) (n n2 : Node) :
    (lk g.nodes n.id = none →
      (g.add_node n).nodes = g.nodes ++ [(n.id, n)] ∧
      lk (g.add_node n).nodes n.id = some n) ∧
    ((lk g.nodes n.id).isSome = true → g.add_node n = g) ∧
    (n2.id = n.id →
      lk ((g.add_node n).add_node n2).nodes n.id =
        lk (g.add_node n).nodes n.id) := by
  refine ⟨?_, ?_, ?_⟩
  · intro habs
    rw [add_node_of_absent g n habs]
    refine ⟨rfl, ?_⟩
    show lk (g.nodes ++ [(n.id, n)]) n.id = some n
    rw [lk_append_single, habs]
    simp
  · exact add_node_of_present g n
  · intro hid
    have hpres2 : (lk (g.add_node n).nodes n2.id).isSome = true := by
      rw [hid]; exact lk_add_node_self g n
    rw [add_node_of_present (g.add_node n) n2 hpres2]

/-- Example nodes sharing an id, for the C2 witness. -/
def cexNodeA : Node := { id := "a", label := "A", type := "class" }

def cexNodeB : Node :=
  { id := "a", label := "B", type := "function", file_path := "f.py",
    line_number := 3, metadata := [("k", MetaVal.str "v")] }

/-- C2 witness: inserting `cexNodeB` after `cexNodeA` under the same id
leaves the first node (with all its fields) stored. -/
theorem C2_witness :
    lk ((Graph.add_node {} cexNodeA).add_node cexNodeB).nodes "a" =
      some cexNodeA := by
  have h := C2_add_node_first_wins {} cexNodeA cexNodeB
  have h1 := (h.1 rfl).2
  have h3 := h.2.2 rfl
  exact h3.trans h1

/-! ### C8: degree computation -/

theorem getD_lk_init (l : List (String × Node)) (k : String) :
    ((lk (l.map (fun p => (p.1, (0 : Nat)))) k).getD 0) = 0 := by
  induction l with
  | nil => simp [lk]
  | cons p t ih =>
      obtain ⟨a, b⟩ := p
      by_cases h : k = a <;> simp [lk, h, ih]

theorem getD_bumpDegree (m : List (String × Nat)) (k k' : String) :
    (lk (bumpDegree m k') k).getD 0 =
      (lk m k).getD 0 + (if k = k' then 1 else 0) := by
  unfold bumpDegree
  rw [lk_setKey]
  by_cases h : k = k' <;> simp [h]

theorem getD_degree_fold (es : List Edge) (m : List (String × Nat))
    (k : String) :
    (lk (es.foldl (fun m e => bumpDegree (bumpDegree m e.source) e.target) m)
        k).getD 0 =
      (lk m k).getD 0 + es.countP (fun e => e.source == k) +
        es.countP (fun e => e.target == k) := by
  induction es generalizing m with
  | nil => simp
  | cons e es ih =>
      rw [List.foldl_cons, ih, getD_bumpDegree, getD_bumpDegree,
        List.countP_cons, List.countP_cons]
      by_cases hs : e.source = k <;> by_cases ht : e.target = k
      · simp only [hs, ht, if_pos rfl, beq_self_eq_true, if_true]
        omega
      · simp only [hs, if_pos rfl, beq_self_eq_true, if_true,
          if_neg (Ne.symm ht)]
        rw [if_neg (by simp [ht] : ¬ (e.target == k) = true)]
        omega
      · rw [if_neg (Ne.symm hs), if_neg (by simp [hs] : ¬ (e.source == k) = true),
          if_pos (ht ▸ rfl : k = e.target), if_pos (by simp [ht])]
        omega
      · rw [if_neg (Ne.symm hs), if_neg (by simp [hs] : ¬ (e.source == k) = true),
          if_neg (Ne.symm ht), if_neg (by simp [ht] : ¬ (e.target == k) = true)]
        omega

/-- C8 (amended): the degree `serialize` reports for a node id is the
number of edges with that id as source plus the number with it as target;
a self-loop is counted on both sides, contributing two. -/
theorem C8_degree_source_plus_target (g : Graph) (nid : String) :
    g.degreeOf nid =
      g.edges.countP (fun e => e.source == nid) +
        g.edges.countP (fun e => e.target == nid) := by
  unfold Graph.degreeOf nodeDegreeMap
  rw [getD_degree_fold, getD_lk_init]
  omega

/-- A graph with a single self-referencing `db_read` edge, as the analyzers
emit for a file with database calls. -/
def selfLoopGraph : Graph :=
  { nodes :=
      [("file:app.py",
        { id := "file:app.py", label := "app.py", type := "file" })],
    edges :=
      [{ source := "file:app.py", target := "file:app.py",
         type := "db_read" }] }

/-- C8 counterexample: exactly one edge touches `file:app.py` (a self-loop),
yet the serialized degree is 2, not 1 — refuting the claim that the degree
equals the count of touching edges with a self-loop contributing one. -/
theorem C8_selfloop_counterexample :
    selfLoopGraph.edges.countP
        (fun e => e.source == "file:app.py" || e.target == "file:app.py")
      = 1 ∧
    selfLoopGraph.degreeOf "file:app.py" = 2 ∧
    selfLoopGraph.degreeOf "file:app.py" ≠
      selfLoopGraph.edges.countP
        (fun e => e.source == "file:app.py" ||
          e.target == "file:app.py") := by
  refine ⟨by decide, by decide, by decide⟩

/-! ### resolve_edges lemmas -/

theorem keySeen_cons (k h : String × String × String)
    (seen : List (String × String × String)) :
    keySeen k (h :: seen) = (decide (h = k) || keySeen k seen) := by
  simp [keySeen]

theorem resolveLoop_mem (ids : List String) (es : List Edge)
    (seen : List (String × String × String)) (e : Edge)
    (he : e ∈ resolveLoop ids es seen) :
    e ∈ es ∧ ids.contains e.source = true ∧ ids.contains e.target = true ∧
      keySeen (edgeKey e) seen = false := by
  induction es generalizing seen with
  | nil => simp [resolveLoop] at he
  | cons a t ih =>
      rw [resolveLoop] at he
      by_cases hc : (ids.contains a.source && ids.contains a.target &&
          !(keySeen (edgeKey a) seen)) = true
      · rw [if_pos hc] at he
        rw [Bool.and_eq_true, Bool.and_eq_true] at hc
        rcases List.mem_cons.mp he with rfl | hmem
        · refine ⟨List.mem_cons_self _ _, hc.1.1, hc.1.2, ?_⟩
          have := hc.2
          rwa [Bool.not_eq_true'] at this
        · obtain ⟨h1, h2, h3, h4⟩ := ih _ hmem
          rw [keySeen_cons, Bool.or_eq_false_iff] at h4
          exact ⟨List.mem_cons_of_mem _ h1, h2, h3, h4.2⟩
      · rw [if_neg hc] at he
        obtain ⟨h1, h2, h3, h4⟩ := ih _ he
        exact ⟨List.mem_cons_of_mem _ h1, h2, h3, h4⟩

theorem resolveLoop_keys_pairwise (ids : List String) (es : List Edge)
    (seen : List (String × String × String)) :
    (resolveLoop ids es seen).Pairwise (fun a b => edgeKey a ≠ edgeKey b) := by
  induction es generalizing seen with
  | nil => simp [resolveLoop]
  | cons a t ih =>
      rw [resolveLoop]
      by_cases hc : (ids.contains a.source && ids.contains a.target &&
          !(keySeen (edgeKey a) seen)) = true
      · rw [if_pos hc]
        refine List.Pairwise.cons ?_ (ih _)
        intro b hb
        have h4 := (resolveLoop_mem ids t _ b hb).2.2.2
        rw [keySeen_cons, Bool.or_eq_false_iff, decide_eq_false_iff_not] at h4
        exact h4.1
      · rw [if_neg hc]
        exact ih _

theorem resolveLoop_of_resolved (ids : List String) (l : List Edge)
    (seen : List (String × String × String))
    (hv : ∀ e ∈ l, ids.contains e.source = true ∧ ids.contains e.target = true)
    (hs : ∀ e ∈ l, keySeen (edgeKey e) seen = false)
    (hp : l.Pairwise (fun a b => edgeKey a ≠ edgeKey b)) :
    resolveLoop ids l seen = l := by
  induction l generalizing seen with
  | nil => rfl
  | cons a t ih =>
      rw [resolveLoop]
      have hva := hv a (List.mem_cons_self _ _)
      have hsa := hs a (List.mem_cons_self _ _)
      have hcond : (ids.contains a.source && ids.contains a.target &&
          !(keySeen (edgeKey a) seen)) = true := by
        rw [Bool.and_eq_true, Bool.and_eq_true, Bool.not_eq_true', hsa]
        exact ⟨⟨hva.1, hva.2⟩, rfl⟩
      rw [if_pos hcond]
      congr 1
      refine ih _ ?_ ?_ (List.Pairwise.of_cons hp)
      · exact fun e he => hv e (List.mem_cons_of_mem _ he)
      · intro e he
        rw [keySeen_cons, Bool.or_eq_false_iff, decide_eq_false_iff_not]
        exact ⟨(List.pairwise_cons.mp hp).1 e he,
          hs e (List.mem_cons_of_mem _ he)⟩

theorem resolveLoop_complete (ids : List String) (es : List Edge)
    (seen : List (String × String × String)) (e : Edge) (he : e ∈ es)
    (hv1 : ids.contains e.source = true) (hv2 : ids.contains e.target = true)
    (hs : keySeen (edgeKey e) seen = false) :
    ∃ e' ∈ resolveLoop ids es seen, edgeKey e' = edgeKey e := by
  induction es generalizing seen with
  | nil => simp at he
  | cons a t ih =>
      rw [resolveLoop]
      rcases List.mem_cons.mp he with rfl | hmem
      · have hcond : (ids.contains e.source && ids.contains e.target &&
            !(keySeen (edgeKey e) seen)) = true := by
          rw [Bool.and_eq_true, Bool.and_eq_true, Bool.not_eq_true', hs]
          exact ⟨⟨hv1, hv2⟩, rfl⟩
        rw [if_pos hcond]
        exact ⟨e, List.mem_cons_self _ _, rfl⟩
      · by_cases hc : (ids.contains a.source && ids.contains a.target &&
            !(keySeen (edgeKey a) seen)) = true
        · rw [if_pos hc]
          by_cases hk : edgeKey e = edgeKey a
          · exact ⟨a, List.mem_cons_self _ _, hk.symm⟩
          · have hs' : keySeen (edgeKey e) (edgeKey a :: seen) = false := by
              rw [keySeen_cons, Bool.or_eq_false_iff,
                decide_eq_false_iff_not]
              exact ⟨fun h => hk h.symm, hs⟩
            obtain ⟨e', he', hk'⟩ := ih _ hmem hs'
            exact ⟨e', List.mem_cons_of_mem _ he', hk'⟩
        · rw [if_neg hc]
          exact ih _ hmem hs

theorem resolveLoop_first_occurrence (ids : List String) (es : List Edge)
    (seen : List (String × String × String)) (e' : Edge)
    (h : e' ∈ resolveLoop ids es seen) :
    es.find? (fun x => decide (edgeKey x = edgeKey e')) = some e' := by
  induction es generalizing seen with
  | nil => simp [resolveLoop] at h
  | cons a t ih =>
      rw [resolveLoop] at h
      by_cases hc : (ids.contains a.source && ids.contains a.target &&
          !(keySeen (edgeKey a) seen)) = true
      · rw [if_pos hc] at h
        rcases List.mem_cons.mp h with rfl | hmem
        · exact List.find?_cons_of_pos _ (by simp)
        · have h4 := (resolveLoop_mem ids t _ e' hmem).2.2.2
          rw [keySeen_cons, Bool.or_eq_false_iff,
            decide_eq_false_iff_not] at h4
          rw [List.find?_cons_of_neg _ (by simpa using h4.1)]
          exact ih _ hmem
      · rw [if_neg hc] at h
        have hprops := resolveLoop_mem ids t seen e' h
        have hne : ¬ (edgeKey a = edgeKey e') := by
          intro hk
          have hsrc : a.source = e'.source := congrArg (fun p => p.1) hk
          have htgt : a.target = e'.target := congrArg (fun p => p.2.1) hk
          have hva : (ids.contains a.source && ids.contains a.target &&
              !(keySeen (edgeKey a) seen)) = true := by
            rw [Bool.and_eq_true, Bool.and_eq_true, Bool.not_eq_true']
            refine ⟨⟨?_, ?_⟩, ?_⟩
            · rw [hsrc]; exact hprops.2.1
            · rw [htgt]; exact hprops.2.2.1
            · rw [hk]; exact hprops.2.2.2
          exact hc hva
        rw [List.find?_cons_of_neg _ (by simpa using hne)]
        exact ih _ h

/-! ### C10: resolve_edges is idempotent and node-frame-preserving -/

/-- C10: `resolveEdges` never adds, removes or modifies a node (the node
dict is returned untouched), and applying it twice yields the same graph —
node set and edge list — as applying it once. -/
theorem C10_resolve_edges_idempotent (g : Graph) :
    (g.resolve_edges).nodes = g.nodes ∧
    (g.resolve_edges).resolve_edges = g.resolve_edges := by
  constructor
  · rfl
  · unfold Graph.resolve_edges
    congr 1
    apply resolveLoop_of_resolved
    · intro e he
      have h := resolveLoop_mem _ _ _ e he
      exact ⟨h.2.1, h.2.2.1⟩
    · intro e _
      rfl
    · exact resolveLoop_keys_pairwise _ _ _

/-! ### C1: terminal validation invariant -/

/-- C1: after `resolveEdges` (whose output `serialize` reports verbatim),
every edge has both endpoints present in the node set, no two edges share a
`(source, target, type)` key, every valid edge of the input survives as a
representative of its key, and each surviving edge is the first edge of the
input edge list bearing its key. -/
theorem C1_resolve_edges_valid_deduped (g : Graph) :
    (∀ e ∈ (g.resolve_edges).edges,
        (lk (g.resolve_edges).nodes e.source).isSome = true ∧
        (lk (g.resolve_edges).nodes e.target).isSome = true) ∧
    (g.resolve_edges).edges.Pairwise (fun a b => edgeKey a ≠ edgeKey b) ∧
    (∀ e ∈ g.edges, (lk g.nodes e.source).isSome = true →
        (lk g.nodes e.target).isSome = true →
        ∃ e' ∈ (g.resolve_edges).edges, edgeKey e' = edgeKey e) ∧
    (∀ e ∈ (g.resolve_edges).edges,
        g.edges.find? (fun x => decide (edgeKey x = edgeKey e)) = some e) := by
  refine ⟨?_, ?_, ?_, ?_⟩
  · intro e he
    have h := resolveLoop_mem _ _ _ e he
    constructor
    · rw [lk_isSome_eq_contains]; exact h.2.1
    · rw [lk_isSome_eq_contains]; exact h.2.2.1
  · exact resolveLoop_keys_pairwise _ _ _
  · intro e he h1 h2
    apply resolveLoop_complete _ _ _ e he
    · rw [← lk_isSome_eq_contains]; exact h1
    · rw [← lk_isSome_eq_contains]; exact h2
    · rfl
  · intro e he
    exact resolveLoop_first_occurrence _ _ _ e he

/-- Example graph for the C1 witness: a duplicate `(source,target,type)`
key with different metadata, and a dangling edge. -/
def c1ExampleGraph : Graph :=
  { nodes :=
      [("a", { id := "a", label := "a", type := "file" }),
       ("b", { id := "b", label := "b", type := "class" })],
    edges :=
      [{ source := "a", target := "b", type := "uses" },
       { source := "a", target := "b", type := "uses",
         metadata := [("x", MetaVal.str "y")] },
       { source := "a", target := "missing", type := "uses" }] }

/-- C1 witness: on `c1ExampleGraph` the surviving duplicate's endpoints are
present and it is the first occurrence of its key. -/
theorem C1_witness :
    (lk (Graph.resolve_edges c1ExampleGraph).nodes "a").isSome = true ∧
    c1ExampleGraph.edges.find?
        (fun x => decide (edgeKey x =
          edgeKey { source := "a", target := "b", type := "uses" })) =
      some { source := "a", target := "b", type := "uses" } := by
  constructor
  · exact ((C1_resolve_edges_valid_deduped c1ExampleGraph).1
      { source := "a", target := "b", type := "uses" } (by decide)).1
  · exact (C1_resolve_edges_valid_deduped c1ExampleGraph).2.2.2
      { source := "a", target := "b", type := "uses" } (by decide)

/-! ### C3: rich-language import resolution order -/

theorem strSplitOn_ne_nil (sep : Char) (s : String) :
    strSplitOn sep s ≠ [] := by
  unfold strSplitOn
  intro h
  exact chSplit_ne_nil sep s.data (List.map_eq_nil_iff.mp h)

/-- The prefix loop computes the first hit over the dotted prefixes of
lengths `i, i-1, …, 1`, each looked up in the module map and then the
suffix map. -/
theorem prefixLoop_eq_firstHit (mm sm : List (String × String))
    (parts : List String) (t : String) (i : Nat) :
    prefixLoop mm sm parts i t =
      (firstHit mm sm (((List.range i).reverse).map
        (fun j => strJoin '.' (parts.take (j + 1))))).getD t := by
  induction i with
  | zero => rfl
  | succ i ih =>
      rw [List.range_succ, List.reverse_append, List.reverse_singleton,
        List.singleton_append, List.map_cons]
      show (let pre := strJoin '.' (parts.take (i + 1));
        match lk mm pre with
        | some fid => fid
        | none =>
            match lk sm pre with
            | some fid => fid
            | none => prefixLoop mm sm parts i t) = _
      simp only
      cases h1 : lk mm (strJoin '.' (parts.take (i + 1))) with
      | some fid => simp [firstHit, lookup2, h1]
      | none =>
          cases h2 : lk sm (strJoin '.' (parts.take (i + 1))) with
          | some fid => simp [firstHit, lookup2, h1, h2]
          | none => simp [firstHit, lookup2, h1, h2, ih]

/-- Per-target equality of the source resolver and the spec-worded
resolution sequence: the source's prefix loop starts at the full path,
whose lookups already failed in the first two steps. -/
theorem pyResolveTarget_eq_spec (mm sm : List (String × String))
    (target : String) :
    pyResolveTarget mm sm target = specResolveTarget mm sm target := by
  unfold pyResolveTarget specResolveTarget
  cases h1 : lk mm (strDrop 7 target) with
  | some fid => simp [firstHit, lookup2, h1]
  | none =>
      cases h2 : lk sm (strDrop 7 target) with
      | some fid => simp [firstHit, lookup2, h1, h2]
      | none =>
          simp only [firstHit, lookup2, h1, h2]
          rw [prefixLoop_eq_firstHit]
          obtain ⟨p, ps, hps⟩ :
              ∃ p ps, strSplitOn '.' (strDrop 7 target) = p :: ps := by
            cases h : strSplitOn '.' (strDrop 7 target) with
            | nil => exact absurd h (strSplitOn_ne_nil _ _)
            | cons p ps => exact ⟨p, ps, rfl⟩
          have hlen : (strSplitOn '.' (strDrop 7 target)).length =
              (strSplitOn '.' (strDrop 7 target)).length - 1 + 1 := by
            rw [hps]; simp
          rw [hlen, List.range_succ, List.reverse_append,
            List.reverse_singleton, List.singleton_append, List.map_cons]
          have htake : (strSplitOn '.' (strDrop 7 target)).take
              ((strSplitOn '.' (strDrop 7 target)).length - 1 + 1) =
              strSplitOn '.' (strDrop 7 target) := by
            rw [← hlen]; exact List.take_length _
          rw [firstHit, htake, strJoin_strSplitOn]
          rw [show lookup2 mm sm (strDrop 7 target) = none by
            simp [lookup2, h1, h2]]
          unfold specPrefixKeys
          cases firstHit mm sm (((List.range
              ((strSplitOn '.' (strDrop 7 target)).length - 1)).reverse).map
              (fun j => strJoin '.'
                ((strSplitOn '.' (strDrop 7 target)).take (j + 1)))) with
          | some fid => rfl
          | none => rfl

/-- C3: `PythonAnalyzer.resolve_imports` rewrites, in place, exactly the
`imports` edges with a `module:` target, and the rewritten target is the
first hit of the spec's sequence: exact module-map match, suffix-map match,
then strictly shorter dotted prefixes longest-to-shortest, each against the
module map and then the suffix map; no hit leaves the target unchanged. -/
theorem C3_py_resolve_imports_spec_order (files : List FileData) (g : Graph) :
    py_resolve_imports files g = spec_resolve_imports files g := by
  unfold py_resolve_imports spec_resolve_imports
  simp only
  congr 1
  apply List.map_congr_left
  intro e _
  rw [pyResolveTarget_eq_spec]

/-! ### C4: script-language relative-import resolution -/

/-- C4 failing input: `a/x.js` imports `./y`; the sibling exists only as
`a/y.ts.js`, reachable solely through the spec's `.ts` extension probe
(`"a/y" + ".ts"` is a key of the file map). -/
def c4Files : List FileData :=
  [{ rel_path := "a/x.js", name := "x.js", ext := ".js",
     jsData := { importTargets := ["./y"] } },
   { rel_path := "a/y.ts.js", name := "y.ts.js", ext := ".js" }]

/-- C4 (code bug): the spec's algorithm probes `resolved + ".ts" = "a/y.ts"`,
which is in the file map, so the edge should be rewritten to
`file:a/y.ts.js`; the code instead probes
`resolved + ext.replace(".", "/")` — `"a/y/js"`, `"a/y/jsx"`, `"a/y/ts"`,
`"a/y/tsx"` — misses, leaves the `module:./y` placeholder in place, and the
terminal validation silently drops the edge. -/
theorem C4_extension_probe_bug :
    (js_resolve_one (js_build_file_paths c4Files)
        { source := "file:a/x.js", target := "module:./y",
          type := "imports" }).target = "module:./y" ∧
    lk (js_build_file_paths c4Files) "a/y.ts" = some "file:a/y.ts.js" ∧
    (analyze_repo c4Files).edges.filter (fun e => e.type == "imports")
      = [] := by
  refine ⟨by decide, by decide, by decide⟩

/-! ### C6: parse failure is atomic and per-file -/

/-- C6: when reading or parsing a rich-language file fails, `analyze_file`
returns with the graph exactly unchanged — no node and no edge from that
file is emitted — and the per-file loop is equivalent to the loop over just
the successfully parsed files, so one failure never aborts the others. -/
theorem C6_parse_failure_atomic (f : FileData) (g : Graph)
    (files : List FileData) :
    (f.pyMod = none → python_analyze_file f g = g) ∧
    (files.foldl (fun g f => python_analyze_file f g) g =
      (files.filter (fun f => f.pyMod.isSome)).foldl
        (fun g f => python_analyze_file f g) g) := by
  constructor
  · intro h
    unfold python_analyze_file
    rw [h]
  · induction files generalizing g with
    | nil => rfl
    | cons f' t ih =>
        cases h : f'.pyMod with
        | none =>
            rw [List.foldl_cons, List.filter_cons]
            have hskip : python_analyze_file f' g = g := by
              unfold python_analyze_file
              rw [h]
            rw [hskip, if_neg (by simp [h])]
            exact ih g
        | some m =>
            rw [List.foldl_cons, List.filter_cons, if_pos (by simp [h]),
              List.foldl_cons]
            exact ih _

/-- C6 witness: a failing file leaves a concrete graph untouched, and the
pass over `[c6BadFile, c6GoodFile]` equals the pass over `[c6GoodFile]`. -/
theorem C6_witness :
    python_analyze_file c6BadFile c6Graph = c6Graph ∧
    [c6BadFile, c6GoodFile].foldl (fun g f => python_analyze_file f g)
        c6Graph =
      [c6GoodFile].foldl (fun g f => python_analyze_file f g) c6Graph := by
  constructor
  · exact (C6_parse_failure_atomic c6BadFile c6Graph []).1 rfl
  · exact (C6_parse_failure_atomic c6BadFile c6Graph
      [c6BadFile, c6GoodFile]).2

/-! ### C7: route extraction -/

/-- `add_edge` never changes the node dict. -/
theorem nodes_add_edge (g : Graph) (e : Edge) :
    (g.add_edge e).nodes = g.nodes := by
  unfold Graph.add_edge
  split <;> rfl

/-- `add_edge_deferred` never changes the node dict. -/
theorem nodes_add_edge_deferred (g : Graph) (e : Edge) :
    (g.add_edge_deferred e).nodes = g.nodes := rfl

/-- Lookup after `add_node` in `setdefault` form. -/
theorem lk_add_node (g : Graph) (n : Node) (k : String) :
    lk (g.add_node n).nodes k =
      match lk g.nodes k with
      | some v => some v
      | none =>
          if k = n.id ∧ (lk g.nodes n.id).isNone then some n else none := by
  have h : (g.add_node n).nodes = setDefault g.nodes n.id n := by
    unfold Graph.add_node setDefault
    by_cases hp : (lk g.nodes n.id).isSome = true <;> simp [hp]
  rw [h, lk_setDefault]
  cases lk g.nodes k <;> rfl

/-- Splitting at a separator character absent from both left parts. -/
theorem append_sep_inj (sep : Char) (u v p q : List Char)
    (hu : sep ∉ u) (hv : sep ∉ v)
    (h : u ++ sep :: p = v ++ sep :: q) : u = v ∧ p = q := by
  induction u generalizing v with
  | nil =>
      cases v with
      | nil => simpa using h
      | cons d v' =>
          rw [List.nil_append, List.cons_append] at h
          have : sep = d := (List.cons.injEq _ _ _ _).mp h |>.1
          exact absurd (this ▸ List.mem_cons_self d v') hv
  | cons c u' ih =>
      cases v with
      | nil =>
          rw [List.cons_append, List.nil_append] at h
          have : c = sep := (List.cons.injEq _ _ _ _).mp h |>.1
          exact absurd (this ▸ List.mem_cons_self c u') hu
      | cons d v' =>
          rw [List.cons_append, List.cons_append] at h
          obtain ⟨h1, h2⟩ := (List.cons.injEq _ _ _ _).mp h
          obtain ⟨h3, h4⟩ := ih v' (fun hm => hu (List.mem_cons_of_mem _ hm))
            (fun hm => hv (List.mem_cons_of_mem _ hm)) h2
          exact ⟨by rw [h1, h3], h4⟩

/-- Strings with equal character data are equal. -/
theorem str_ext (s t : String) (h : s.data = t.data) : s = t := by
  cases s
  cases t
  exact congrArg String.mk h

/-- The uppercased route verbs contain no `':'`. -/
theorem route_verb_no_colon (v : String) (h : v ∈ EXPRESS_ROUTE_VERBS) :
    ':' ∉ (strUpper v).data := by
  fin_cases h <;> decide

/-- Within a file, route-node ids coincide exactly when the uppercased verb
and the path coincide (verbs coming from the route regex). -/
theorem epIdOf_inj (rel : String) (m m' : RouteMatch)
    (h1 : m.verb ∈ EXPRESS_ROUTE_VERBS) (h2 : m'.verb ∈ EXPRESS_ROUTE_VERBS) :
    epIdOf rel m = epIdOf rel m' ↔
      (strUpper m.verb = strUpper m'.verb ∧ m.path = m'.path) := by
  constructor
  · intro h
    unfold epIdOf at h
    have hd := congrArg String.data h
    simp only [String.data_append, List.append_assoc] at hd
    have hd1 := List.append_cancel_left hd
    have hd2 := List.append_cancel_left hd1
    have hd3 := List.append_cancel_left hd2
    have hd4 : (strUpper m.verb).data ++ ':' :: m.path.data =
        (strUpper m'.verb).data ++ ':' :: m'.path.data := hd3
    obtain ⟨hu, hp⟩ := append_sep_inj ':' _ _ _ _
      (route_verb_no_colon m.verb h1) (route_verb_no_colon m'.verb h2) hd4
    exact ⟨str_ext _ _ hu, str_ext _ _ hp⟩
  · intro ⟨hu, hp⟩
    unfold epIdOf
    rw [hu, hp]

/-- Node lookup evolution through `_extract_routes`: an already present id
keeps its node, and a fresh id ends up mapped to the route node of the
first match bearing it (or stays absent). -/
theorem extract_routes_lookup (rel fid source : String)
    (ms : List RouteMatch) (g : Graph) (k : String) :
    lk (js_extract_routes rel fid source ms g).nodes k =
      match lk g.nodes k with
      | some v => some v
      | none => (ms.find? (fun m => decide (epIdOf rel m = k))).map
          (routeNodeOf rel source) := by
  induction ms generalizing g with
  | nil =>
      cases h : lk g.nodes k <;> simp [js_extract_routes, h]
  | cons m t ih =>
      show lk (js_extract_routes rel fid source t _).nodes k = _
      rw [ih]
      rw [show ∀ g' : Graph, lk ((g'.add_edge
        { source := fid, target := epIdOf rel m,
          type := "endpoint_handler" }).nodes) k = lk g'.nodes k from
        fun g' => by rw [nodes_add_edge]]
      rw [lk_add_node]
      cases h : lk g.nodes k with
      | some v => simp
      | none =>
          simp only
          by_cases hk : k = (routeNodeOf rel source m).id
          · have hkid : epIdOf rel m = k := by
              rw [hk]; rfl
            have hnone : (lk g.nodes (routeNodeOf rel source m).id).isNone :=
              by rw [← hk, h]; rfl
            rw [if_pos ⟨hk, hnone⟩]
            rw [List.find?_cons_of_pos _ (by simpa using hkid)]
            rfl
          · have hkid : ¬ (epIdOf rel m = k) := fun hh => hk (by
              rw [← hh]; rfl)
            rw [if_neg (by intro hc; exact hk hc.1)]
            rw [List.find?_cons_of_neg _ (by simpa using hkid)]

/-- `add_node` never changes the edge list. -/
theorem edges_add_node (g : Graph) (n : Node) :
    (g.add_node n).edges = g.edges := by
  unfold Graph.add_node
  split <;> rfl

/-- An existing binding survives `add_node`. -/
theorem lk_add_node_some (g : Graph) (n : Node) (k : String) (v : Node)
    (h : lk g.nodes k = some v) : lk (g.add_node n).nodes k = some v := by
  rw [lk_add_node, h]

/-- Edge membership is preserved by `add_edge`. -/
theorem mem_edges_add_edge (g : Graph) (x e : Edge) (he : e ∈ g.edges) :
    e ∈ (g.add_edge x).edges := by
  unfold Graph.add_edge
  split
  · exact List.mem_append_left _ he
  · exact he

/-- Edge membership is preserved by `_extract_routes`. -/
theorem extract_routes_edges_mono (rel fid source : String)
    (ms : List RouteMatch) (g : Graph) (e : Edge) (he : e ∈ g.edges) :
    e ∈ (js_extract_routes rel fid source ms g).edges := by
  induction ms generalizing g with
  | nil => exact he
  | cons m t ih =>
      show e ∈ (js_extract_routes rel fid source t _).edges
      apply ih
      apply mem_edges_add_edge
      rw [edges_add_node]
      exact he

/-- Each route match's validated `endpoint_handler` edge lands in the edge
list, provided the file node exists. -/
theorem extract_routes_edge_mem (rel fid source : String)
    (ms : List RouteMatch) (g : Graph)
    (hfid : (lk g.nodes fid).isSome = true) :
    ∀ m ∈ ms,
      ({ source := fid, target := epIdOf rel m,
         type := "endpoint_handler" } : Edge) ∈
        (js_extract_routes rel fid source ms g).edges := by
  induction ms generalizing g with
  | nil => intro m hm; simp at hm
  | cons m t ih =>
      obtain ⟨v, hv⟩ := Option.isSome_iff_exists.mp hfid
      have hfid1 : lk ((g.add_node (routeNodeOf rel source m)).nodes) fid =
          some v := lk_add_node_some _ _ _ _ hv
      have htgt : (lk ((g.add_node (routeNodeOf rel source m)).nodes)
          (epIdOf rel m)).isSome = true := by
        rw [show epIdOf rel m = (routeNodeOf rel source m).id from rfl]
        exact lk_add_node_self g (routeNodeOf rel source m)
      have hedges : ((g.add_node (routeNodeOf rel source m)).add_edge
          { source := fid, target := epIdOf rel m,
            type := "endpoint_handler" }).edges =
          (g.add_node (routeNodeOf rel source m)).edges ++
            [{ source := fid, target := epIdOf rel m,
               type := "endpoint_handler" }] := by
        unfold Graph.add_edge
        rw [if_pos]
        show ((lk _ fid).isSome && (lk _ (epIdOf rel m)).isSome) = true
        rw [hfid1, htgt]
        rfl
      intro m' hm'
      rcases List.mem_cons.mp hm' with rfl | hmem
      · show _ ∈ (js_extract_routes rel fid source t _).edges
        apply extract_routes_edges_mono
        rw [hedges]
        exact List.mem_append_right _ (List.mem_cons_self _ _)
      · show _ ∈ (js_extract_routes rel fid source t _).edges
        refine ih _ ?_ m' hmem
        rw [nodes_add_edge, hfid1]
        rfl

/-- C7: `_extract_routes` stores, for every match, exactly one node per
distinct `(file, verb, path)` — the node of the first match bearing that
id, whose type is `middleware` iff the uppercased verb is the mount verb
`USE` and `endpoint` otherwise, whose label combines verb and path (or
`"(middleware)"` for an empty path), and whose line number counts the
newlines preceding the match offset; node ids of distinct `(verb, path)`
pairs are distinct, no other node is created, and each match emits a
validated `endpoint_handler` edge from the file node. -/
theorem C7_extract_routes_spec (rel source : String) (ms : List RouteMatch)
    (g : Graph)
    (hfile : (lk g.nodes ("file:" ++ rel)).isSome = true)
    (hfresh : ∀ m ∈ ms, lk g.nodes (epIdOf rel m) = none)
    (hverbs : ∀ m ∈ ms, m.verb ∈ EXPRESS_ROUTE_VERBS) :
    (∀ m ∈ ms,
      lk (js_extract_routes rel ("file:" ++ rel) source ms g).nodes
          (epIdOf rel m) =
        (ms.find? (fun m' => decide (epIdOf rel m' = epIdOf rel m))).map
          (routeNodeOf rel source)) ∧
    (∀ m ∈ ms, ∀ m' ∈ ms, (epIdOf rel m = epIdOf rel m' ↔
        (strUpper m.verb = strUpper m'.verb ∧ m.path = m'.path))) ∧
    (∀ k, lk g.nodes k = none → (∀ m ∈ ms, k ≠ epIdOf rel m) →
      lk (js_extract_routes rel ("file:" ++ rel) source ms g).nodes k =
        none) ∧
    (∀ m ∈ ms, routeEdgeOf rel m ∈
      (js_extract_routes rel ("file:" ++ rel) source ms g).edges) ∧
    (∀ m : RouteMatch,
      (routeNodeOf rel source m).type =
          (if strUpper m.verb = "USE" then "middleware" else "endpoint") ∧
      (routeNodeOf rel source m).label =
          (if m.path = "" then strUpper m.verb ++ " (middleware)"
           else strUpper m.verb ++ " " ++ m.path) ∧
      (routeNodeOf rel source m).line_number =
        countNewlines source m.start + 1) := by
  refine ⟨?_, ?_, ?_, ?_, ?_⟩
  · intro m hm
    rw [extract_routes_lookup, hfresh m hm]
  · intro m hm m' hm'
    exact epIdOf_inj rel m m' (hverbs m hm) (hverbs m' hm')
  · intro k hk hne
    rw [extract_routes_lookup, hk]
    have : ms.find? (fun m => decide (epIdOf rel m = k)) = none := by
      rw [List.find?_eq_none]
      intro m hm
      simpa using fun hh => hne m hm hh.symm
    rw [this]
    rfl
  · exact extract_routes_edge_mem rel ("file:" ++ rel) source ms g hfile
  · intro m
    refine ⟨?_, ?_, rfl⟩
    · by_cases h : strUpper m.verb = "USE" <;>
        simp [routeNodeOf, h]
    · by_cases h : m.path = "" <;>
        simp [routeNodeOf, h]

/-- C7 witness: on a concrete file with a duplicated `("get", "/a")` route
and a mount (`use`) route, the stored node is the first occurrence's node
and its `endpoint_handler` edge is present. -/
theorem C7_witness :
    lk (js_extract_routes "r.js" ("file:" ++ "r.js") "ab\ncd" c7Matches
        c7Graph).nodes (epIdOf "r.js" c7M1) =
      some (routeNodeOf "r.js" "ab\ncd" c7M1) ∧
    routeEdgeOf "r.js" c7M1 ∈
      (js_extract_routes "r.js" ("file:" ++ "r.js") "ab\ncd" c7Matches
        c7Graph).edges := by
  have h := C7_extract_routes_spec "r.js" "ab\ncd" c7Matches c7Graph
    (by decide) (by decide) (by decide)
  constructor
  · have ha := h.1 c7M1 (by decide)
    rw [ha]
    decide
  · exact h.2.2.2.1 c7M1 (by decide)

/-! ### Pipeline node-set lemmas (C5, C9) -/

theorem not_module_file (s : String) :
    strStartsWith "module:" ("file:" ++ s) = false := by
  simp [strStartsWith, String.data_append, List.isPrefixOf]

theorem not_module_class (s : String) :
    strStartsWith "module:" ("class:" ++ s) = false := by
  simp [strStartsWith, String.data_append, List.isPrefixOf]

theorem not_module_class_ref (s : String) :
    strStartsWith "module:" ("class_ref:" ++ s) = false := by
  simp [strStartsWith, String.data_append, List.isPrefixOf]

theorem not_module_endpoint (s : String) :
    strStartsWith "module:" ("endpoint:" ++ s) = false := by
  simp [strStartsWith, String.data_append, List.isPrefixOf]

theorem not_module_func (s : String) :
    strStartsWith "module:" ("func:" ++ s) = false := by
  simp [strStartsWith, String.data_append, List.isPrefixOf]

theorem not_module_model (s : String) :
    strStartsWith "module:" ("model:" ++ s) = false := by
  simp [strStartsWith, String.data_append, List.isPrefixOf]

theorem not_module_router (s : String) :
    strStartsWith "module:" ("router:" ++ s) = false := by
  simp [strStartsWith, String.data_append, List.isPrefixOf]

/-- Common prefixes cancel in string equations. -/
theorem string_append_left_cancel (p a b : String) (h : p ++ a = p ++ b) :
    a = b := by
  have hd := congrArg String.data h
  simp only [String.data_append] at hd
  exact str_ext _ _ (List.append_cancel_left hd)

/-- Fold preservation of existing node bindings (graph accumulator). -/
theorem lk_pres_foldl {α : Type} (step : Graph → α → Graph)
    (hstep : ∀ g a k v, lk g.nodes k = some v →
      lk (step g a).nodes k = some v)
    (l : List α) (g : Graph) (k : String) (v : Node)
    (h : lk g.nodes k = some v) :
    lk (l.foldl step g).nodes k = some v := by
  induction l generalizing g with
  | nil => exact h
  | cons a t ih => exact ih _ (hstep g a k v h)

/-- Fold preservation of existing node bindings (graph × seen-set
accumulator). -/
theorem lk_pres_foldl_pair {α : Type}
    (step : Graph × List String → α → Graph × List String)
    (hstep : ∀ p a k v, lk p.1.nodes k = some v →
      lk (step p a).1.nodes k = some v)
    (l : List α) (p : Graph × List String) (k : String) (v : Node)
    (h : lk p.1.nodes k = some v) :
    lk (l.foldl step p).1.nodes k = some v := by
  induction l generalizing p with
  | nil => exact h
  | cons a t ih => exact ih _ (hstep p a k v h)

/-- Folds whose step never touches nodes leave the node dict unchanged. -/
theorem nodes_foldl_eq {α : Type} (step : Graph → α → Graph)
    (hstep : ∀ g a, (step g a).nodes = g.nodes)
    (l : List α) (g : Graph) : (l.foldl step g).nodes = g.nodes := by
  induction l generalizing g with
  | nil => rfl
  | cons a t ih => rw [List.foldl_cons, ih, hstep]

theorem nodes_pyExtractImports (fid : String) (l : List String) (g : Graph) :
    (pyExtractImports fid l g).nodes = g.nodes := by
  unfold pyExtractImports
  refine nodes_foldl_eq _ ?_ l g
  intro g' a
  rfl

theorem nodes_pyExtractCalls (fid : String) (l : List PyCall) (g : Graph) :
    (pyExtractCalls fid l g).nodes = g.nodes := by
  unfold pyExtractCalls
  refine nodes_foldl_eq _ ?_ l g
  intro g a
  cases a with
  | attr method obj =>
      dsimp only
      split <;> (first | rfl |
        (split <;> (first | rfl | (split <;> rfl))))
  | bare f =>
      dsimp only
      split <;> rfl

theorem nodes_js_extract_imports (fid : String) (l : List String)
    (g : Graph) : (js_extract_imports fid l g).nodes = g.nodes := by
  unfold js_extract_imports
  refine nodes_foldl_eq _ ?_ l g
  intro g' a
  rfl

theorem lk_pres_pyExtractClassOne (rel fid : String) (c : PyClass)
    (g : Graph) (k : String) (v : Node) (h : lk g.nodes k = some v) :
    lk (pyExtractClassOne rel fid c g).nodes k = some v := by
  unfold pyExtractClassOne
  refine lk_pres_foldl _ ?_ _ _ _ _ (lk_pres_foldl _ ?_ _ _ _ _ ?_)
  · intro g' m k' v' h'
    dsimp only
    split
    · rw [nodes_add_edge]
      exact lk_add_node_some _ _ _ _ h'
    · exact h'
  · intro g' base k' v' h'
    dsimp only
    split
    · exact h'
    · show lk (((g'.add_node _).add_edge_deferred _).nodes) k' = some v'
      rw [nodes_add_edge_deferred]
      exact lk_add_node_some _ _ _ _ h'
  · rw [nodes_add_edge]
    exact lk_add_node_some _ _ _ _ h

theorem lk_pres_pyExtractClasses (rel fid : String) (cs : List PyClass)
    (g : Graph) (k : String) (v : Node) (h : lk g.nodes k = some v) :
    lk (pyExtractClasses rel fid cs g).nodes k = some v := by
  unfold pyExtractClasses
  refine lk_pres_foldl _ ?_ _ _ _ _ h
  intro g' c k' v' h'
  exact lk_pres_pyExtractClassOne rel fid c g' k' v' h'

theorem lk_pres_pyExtractFunctions (rel fid : String) (fs : List PyFunc)
    (g : Graph) (k : String) (v : Node) (h : lk g.nodes k = some v) :
    lk (pyExtractFunctions rel fid fs g).nodes k = some v := by
  unfold pyExtractFunctions
  refine lk_pres_foldl _ ?_ _ _ _ _ h
  intro g' f k' v' h'
  dsimp only
  repeat' split
  all_goals
    first
    | (rw [nodes_add_edge, nodes_add_edge]
       exact lk_add_node_some _ _ _ _ h')
    | (rw [nodes_add_edge]
       exact lk_add_node_some _ _ _ _ h')

theorem lk_pres_python_analyze_file (f : FileData) (g : Graph) (k : String)
    (v : Node) (h : lk g.nodes k = some v) :
    lk (python_analyze_file f g).nodes k = some v := by
  unfold python_analyze_file
  cases f.pyMod with
  | none => exact h
  | some m =>
      dsimp only
      rw [nodes_pyExtractCalls, nodes_pyExtractImports]
      exact lk_pres_pyExtractFunctions _ _ _ _ _ _
        (lk_pres_pyExtractClasses _ _ _ _ _ _ h)

theorem lk_pres_js_extract_routes (rel fid source : String)
    (ms : List RouteMatch) (g : Graph) (k : String) (v : Node)
    (h : lk g.nodes k = some v) :
    lk (js_extract_routes rel fid source ms g).nodes k = some v := by
  induction ms generalizing g with
  | nil => exact h
  | cons m t ih =>
      show lk (js_extract_routes rel fid source t _).nodes k = some v
      apply ih
      rw [nodes_add_edge]
      exact lk_add_node_some _ _ _ _ h

theorem lk_pres_js_extract_classes (rel fid source : String)
    (cs : List JsClassMatch) (p : Graph × List String) (k : String)
    (v : Node) (h : lk p.1.nodes k = some v) :
    lk (js_extract_classes rel fid source cs p).1.nodes k = some v := by
  unfold js_extract_classes
  refine lk_pres_foldl_pair _ ?_ _ _ _ _ h
  intro p' c k' v' h'
  dsimp only
  cases c.base with
  | some b =>
      show lk ((((p'.1.add_node _).add_edge _).add_node
        _).add_edge_deferred _).nodes k' = some v'
      rw [nodes_add_edge_deferred]
      apply lk_add_node_some
      rw [nodes_add_edge]
      exact lk_add_node_some _ _ _ _ h'
  | none =>
      show lk ((p'.1.add_node _).add_edge _).nodes k' = some v'
      rw [nodes_add_edge]
      exact lk_add_node_some _ _ _ _ h'

theorem lk_pres_js_extract_funcs (rel fid ext source : String)
    (ms : List JsNameMatch) (p : Graph × List String) (k : String)
    (v : Node) (h : lk p.1.nodes k = some v) :
    lk (js_extract_funcs rel fid ext source ms p).1.nodes k = some v := by
  unfold js_extract_funcs
  refine lk_pres_foldl_pair _ ?_ _ _ _ _ h
  intro p' m k' v' h'
  dsimp only
  split
  · exact h'
  · show lk ((p'.1.add_node _).add_edge _).nodes k' = some v'
    rw [nodes_add_edge]
    exact lk_add_node_some _ _ _ _ h'

theorem lk_pres_js_extract_models (rel fid source : String)
    (ms : List JsNameMatch) (g : Graph) (k : String) (v : Node)
    (h : lk g.nodes k = some v) :
    lk (js_extract_models rel fid source ms g).nodes k = some v := by
  unfold js_extract_models
  refine lk_pres_foldl _ ?_ _ _ _ _ h
  intro g' m k' v' h'
  dsimp only
  rw [nodes_add_edge]
  exact lk_add_node_some _ _ _ _ h'

theorem lk_pres_js_detect_router (rel fid : String) (g : Graph) (k : String)
    (v : Node) (h : lk g.nodes k = some v) :
    lk (js_detect_router rel fid g).nodes k = some v := by
  unfold js_detect_router
  dsimp only
  rw [nodes_add_edge]
  exact lk_add_node_some _ _ _ _ h

theorem nodes_ite_deferred (g : Graph) (b : Bool) (e : Edge) :
    (if b then g.add_edge_deferred e else g).nodes = g.nodes := by
  split <;> rfl

theorem lk_pres_js_analyze_file (f : FileData) (g : Graph) (k : String)
    (v : Node) (h : lk g.nodes k = some v) :
    lk (js_analyze_file f g).nodes k = some v := by
  unfold js_analyze_file
  dsimp only
  have hbase :
      lk (js_extract_models f.rel_path ("file:" ++ f.rel_path)
        f.jsData.source f.jsData.modelMatches
        (js_extract_funcs f.rel_path ("file:" ++ f.rel_path) f.ext
          f.jsData.source f.jsData.arrowMatches
          (js_extract_funcs f.rel_path ("file:" ++ f.rel_path) f.ext
            f.jsData.source f.jsData.funcMatches
            (js_extract_classes f.rel_path ("file:" ++ f.rel_path)
              f.jsData.source f.jsData.classMatches
              (js_extract_routes f.rel_path ("file:" ++ f.rel_path)
                f.jsData.source f.jsData.routes g, [])))).1).nodes k =
        some v := by
    apply lk_pres_js_extract_models
    apply lk_pres_js_extract_funcs
    apply lk_pres_js_extract_funcs
    apply lk_pres_js_extract_classes
    exact lk_pres_js_extract_routes _ _ _ _ _ _ _ h
  split
  · apply lk_pres_js_detect_router
    rw [nodes_ite_deferred, nodes_ite_deferred, nodes_ite_deferred,
      nodes_js_extract_imports]
    exact hbase
  · rw [nodes_ite_deferred, nodes_ite_deferred, nodes_ite_deferred,
      nodes_js_extract_imports]
    exact hbase

theorem nodesOk_add_node (g : Graph) (n : Node) (hg : NodesOk g)
    (hn : strStartsWith "module:" n.id = false) :
    NodesOk (g.add_node n) := by
  intro k hk
  rw [lk_add_node] at hk
  cases h : lk g.nodes k with
  | some v =>
      apply hg k
      rw [h]
      rfl
  | none =>
      rw [h] at hk
      dsimp only at hk
      by_cases hc : k = n.id ∧ (lk g.nodes n.id).isNone
      · rw [hc.1]
        exact hn
      · rw [if_neg hc] at hk
        simp at hk

theorem nodesOk_of_nodes_eq (g g' : Graph) (h : g'.nodes = g.nodes)
    (hg : NodesOk g) : NodesOk g' := by
  intro k hk
  apply hg k
  rw [← h]
  exact hk

theorem nodesOk_foldl {α : Type} (step : Graph → α → Graph)
    (hstep : ∀ g a, NodesOk g → NodesOk (step g a)) (l : List α)
    (g : Graph) (hg : NodesOk g) : NodesOk (l.foldl step g) := by
  induction l generalizing g with
  | nil => exact hg
  | cons a t ih => exact ih _ (hstep g a hg)

theorem nodesOk_foldl_pair {α : Type}
    (step : Graph × List String → α → Graph × List String)
    (hstep : ∀ p a, NodesOk p.1 → NodesOk (step p a).1) (l : List α)
    (p : Graph × List String) (hg : NodesOk p.1) :
    NodesOk (l.foldl step p).1 := by
  induction l generalizing p with
  | nil => exact hg
  | cons a t ih => exact ih _ (hstep p a hg)

theorem nodesOk_generic_analyze_file (f : FileData) (g : Graph)
    (hg : NodesOk g) : NodesOk (generic_analyze_file f g) := by
  unfold generic_analyze_file
  dsimp only
  have h1 : NodesOk (g.add_node (genericFileNode f)) :=
    nodesOk_add_node g _ hg (not_module_file _)
  split
  · exact h1
  · refine nodesOk_of_nodes_eq _ _ ?_ h1
    refine nodes_foldl_eq _ ?_ _ _
    intro g' a
    rfl

theorem nodesOk_pyExtractClassOne (rel fid : String) (c : PyClass)
    (g : Graph) (hg : NodesOk g) :
    NodesOk (pyExtractClassOne rel fid c g) := by
  unfold pyExtractClassOne
  refine nodesOk_foldl _ ?_ _ _ (nodesOk_foldl _ ?_ _ _ ?_)
  · intro g' m hg'
    dsimp only
    split
    · refine nodesOk_of_nodes_eq _ _ (nodes_add_edge _ _) ?_
      exact nodesOk_add_node _ _ hg' (not_module_endpoint _)
    · exact hg'
  · intro g' base hg'
    dsimp only
    split
    · exact hg'
    · refine nodesOk_of_nodes_eq _ _ (nodes_add_edge_deferred _ _) ?_
      exact nodesOk_add_node _ _ hg' (not_module_class_ref _)
  · refine nodesOk_of_nodes_eq _ _ (nodes_add_edge _ _) ?_
    exact nodesOk_add_node _ _ hg (not_module_class _)

theorem nodesOk_python_analyze_file (f : FileData) (g : Graph)
    (hg : NodesOk g) : NodesOk (python_analyze_file f g) := by
  unfold python_analyze_file
  cases f.pyMod with
  | none => exact hg
  | some m =>
      dsimp only
      refine nodesOk_of_nodes_eq _ _ (nodes_pyExtractCalls _ _ _) ?_
      refine nodesOk_of_nodes_eq _ _ (nodes_pyExtractImports _ _ _) ?_
      have h1 : NodesOk (pyExtractClasses f.rel_path ("file:" ++ f.rel_path)
          m.classes g) := by
        unfold pyExtractClasses
        refine nodesOk_foldl _ ?_ _ _ hg
        intro g' c hg'
        exact nodesOk_pyExtractClassOne _ _ c g' hg'
      unfold pyExtractFunctions
      refine nodesOk_foldl _ ?_ _ _ h1
      intro g' fn hg'
      dsimp only
      repeat' split
      all_goals
    first
    | (refine nodesOk_of_nodes_eq _ _ (nodes_add_edge _ _) ?_
       refine nodesOk_of_nodes_eq _ _ (nodes_add_edge _ _) ?_
       exact nodesOk_add_node _ _ hg' (not_module_func _))
    | (refine nodesOk_of_nodes_eq _ _ (nodes_add_edge _ _) ?_
       exact nodesOk_add_node _ _ hg' (not_module_func _))

theorem nodesOk_js_extract_routes (rel fid source : String)
    (ms : List RouteMatch) (g : Graph) (hg : NodesOk g) :
    NodesOk (js_extract_routes rel fid source ms g) := by
  unfold js_extract_routes
  refine nodesOk_foldl _ ?_ _ _ hg
  intro g' m hg'
  dsimp only
  refine nodesOk_of_nodes_eq _ _ (nodes_add_edge _ _) ?_
  exact nodesOk_add_node _ _ hg' (not_module_endpoint _)

theorem nodesOk_js_extract_classes (rel fid source : String)
    (cs : List JsClassMatch) (p : Graph × List String)
    (hg : NodesOk p.1) :
    NodesOk (js_extract_classes rel fid source cs p).1 := by
  unfold js_extract_classes
  refine nodesOk_foldl_pair _ ?_ _ _ hg
  intro p' c hg'
  dsimp only
  cases c.base with
  | some b =>
      refine nodesOk_of_nodes_eq _ _ (nodes_add_edge_deferred _ _) ?_
      refine nodesOk_add_node _ _ ?_ (not_module_class_ref _)
      refine nodesOk_of_nodes_eq _ _ (nodes_add_edge _ _) ?_
      exact nodesOk_add_node _ _ hg' (not_module_class _)
  | none =>
      refine nodesOk_of_nodes_eq _ _ (nodes_add_edge _ _) ?_
      exact nodesOk_add_node _ _ hg' (not_module_class _)

theorem nodesOk_js_extract_funcs (rel fid ext source : String)
    (ms : List JsNameMatch) (p : Graph × List String) (hg : NodesOk p.1) :
    NodesOk (js_extract_funcs rel fid ext source ms p).1 := by
  unfold js_extract_funcs
  refine nodesOk_foldl_pair _ ?_ _ _ hg
  intro p' m hg'
  dsimp only
  split
  · exact hg'
  · refine nodesOk_of_nodes_eq _ _ (nodes_add_edge _ _) ?_
    exact nodesOk_add_node _ _ hg' (not_module_func _)

theorem nodesOk_js_extract_models (rel fid source : String)
    (ms : List JsNameMatch) (g : Graph) (hg : NodesOk g) :
    NodesOk (js_extract_models rel fid source ms g) := by
  unfold js_extract_models
  refine nodesOk_foldl _ ?_ _ _ hg
  intro g' m hg'
  dsimp only
  refine nodesOk_of_nodes_eq _ _ (nodes_add_edge _ _) ?_
  exact nodesOk_add_node _ _ hg' (not_module_model _)

theorem nodesOk_js_detect_router (rel fid : String) (g : Graph)
    (hg : NodesOk g) : NodesOk (js_detect_router rel fid g) := by
  unfold js_detect_router
  dsimp only
  refine nodesOk_of_nodes_eq _ _ (nodes_add_edge _ _) ?_
  exact nodesOk_add_node _ _ hg (not_module_router _)

theorem nodesOk_js_analyze_file (f : FileData) (g : Graph)
    (hg : NodesOk g) : NodesOk (js_analyze_file f g) := by
  unfold js_analyze_file
  dsimp only
  have hbase : NodesOk (js_extract_models f.rel_path
      ("file:" ++ f.rel_path) f.jsData.source f.jsData.modelMatches
      (js_extract_funcs f.rel_path ("file:" ++ f.rel_path) f.ext
        f.jsData.source f.jsData.arrowMatches
        (js_extract_funcs f.rel_path ("file:" ++ f.rel_path) f.ext
          f.jsData.source f.jsData.funcMatches
          (js_extract_classes f.rel_path ("file:" ++ f.rel_path)
            f.jsData.source f.jsData.classMatches
            (js_extract_routes f.rel_path ("file:" ++ f.rel_path)
              f.jsData.source f.jsData.routes g, [])))).1) := by
    apply nodesOk_js_extract_models
    apply nodesOk_js_extract_funcs
    apply nodesOk_js_extract_funcs
    apply nodesOk_js_extract_classes
    exact nodesOk_js_extract_routes _ _ _ _ _ hg
  have hmid : NodesOk (js_extract_imports ("file:" ++ f.rel_path)
      f.jsData.importTargets (js_extract_models f.rel_path
        ("file:" ++ f.rel_path) f.jsData.source f.jsData.modelMatches
        (js_extract_funcs f.rel_path ("file:" ++ f.rel_path) f.ext
          f.jsData.source f.jsData.arrowMatches
          (js_extract_funcs f.rel_path ("file:" ++ f.rel_path) f.ext
            f.jsData.source f.jsData.funcMatches
            (js_extract_classes f.rel_path ("file:" ++ f.rel_path)
              f.jsData.source f.jsData.classMatches
              (js_extract_routes f.rel_path ("file:" ++ f.rel_path)
                f.jsData.source f.jsData.routes g, [])))).1)) :=
    nodesOk_of_nodes_eq _ _ (nodes_js_extract_imports _ _ _) hbase
  split
  · apply nodesOk_js_detect_router
    refine nodesOk_of_nodes_eq _ _ ?_ hmid
    rw [nodes_ite_deferred, nodes_ite_deferred, nodes_ite_deferred]
  · refine nodesOk_of_nodes_eq _ _ ?_ hmid
    rw [nodes_ite_deferred, nodes_ite_deferred, nodes_ite_deferred]

/-- The pre-validation graph of the whole pipeline has no `module:` node. -/
theorem nodesOk_analyze_repo_pre (files : List FileData) :
    NodesOk (analyze_repo_pre files) := by
  unfold analyze_repo_pre
  dsimp only
  have hempty : NodesOk ({} : Graph) := by
    intro k hk
    simp [lk] at hk
  have hgen : NodesOk (files.foldl
      (fun g f => generic_analyze_file f g) {}) := by
    refine nodesOk_foldl _ ?_ _ _ hempty
    intro g' f hg'
    exact nodesOk_generic_analyze_file f g' hg'
  have hpy : NodesOk (if (files.filter
      (fun f => PYTHON_EXTENSIONS.contains f.ext)).isEmpty then
        files.foldl (fun g f => generic_analyze_file f g) {}
      else py_resolve_imports
        (files.filter (fun f => PYTHON_EXTENSIONS.contains f.ext))
        ((files.filter (fun f => PYTHON_EXTENSIONS.contains f.ext)).foldl
          (fun g f => python_analyze_file f g)
          (files.foldl (fun g f => generic_analyze_file f g) {}))) := by
    split
    · exact hgen
    · refine nodesOk_of_nodes_eq _ _ rfl ?_
      refine nodesOk_foldl _ ?_ _ _ hgen
      intro g' f hg'
      exact nodesOk_python_analyze_file f g' hg'
  split
  · exact hpy
  · refine nodesOk_of_nodes_eq _ _ rfl ?_
    refine nodesOk_foldl _ ?_ _ _ hpy
    intro g' f hg'
    exact nodesOk_js_analyze_file f g' hg'

/-! ### C5: module placeholders never survive validation -/

/-- C5: for every repository input, no edge of the final output has a
target beginning with `module:`.  No analyzer ever creates a node under a
`module:` id, so a deferred import edge whose target never got rewritten
points at a nonexistent node and is silently discarded — not surfaced as an
error and not left dangling — by the terminal validation pass. -/
theorem C5_no_module_target_survives (files : List FileData) :
    ∀ e ∈ (analyze_repo files).edges,
      strStartsWith "module:" e.target = false := by
  intro e he
  have h := resolveLoop_mem _ _ _ e he
  have hsome : (lk (analyze_repo_pre files).nodes e.target).isSome = true := by
    rw [lk_isSome_eq_contains]
    exact h.2.2.1
  exact nodesOk_analyze_repo_pre files e.target hsome

/-- C5 witness: on `c5Files` the resolved sibling-import edge survives with
a `file:` target, and no surviving edge carries a `module:` target. -/
theorem C5_witness :
    ({ source := "file:a/x.js", target := "file:a/y.js",
       type := "imports" } : Edge) ∈ (analyze_repo c5Files).edges ∧
    strStartsWith "module:"
      ({ source := "file:a/x.js", target := "file:a/y.js",
         type := "imports" } : Edge).target = false := by
  constructor
  · decide
  · exact C5_no_module_target_survives c5Files _ (by decide)

/-! ### C9: the generic pass establishes every file node first -/

theorem lk_pres_generic_analyze_file (f : FileData) (g : Graph) (k : String)
    (v : Node) (h : lk g.nodes k = some v) :
    lk (generic_analyze_file f g).nodes k = some v := by
  unfold generic_analyze_file
  dsimp only
  split
  · exact lk_add_node_some _ _ _ _ h
  · have heq := nodes_foldl_eq (fun (g' : Graph) (t : String) =>
      g'.add_edge_deferred
        { source := "file:" ++ f.rel_path, target := "module:" ++ t,
          type := "imports" })
      (fun g' a => rfl) f.genImports (g.add_node (genericFileNode f))
    rw [heq]
    exact lk_add_node_some _ _ _ _ h

theorem lk_generic_analyze_file_self (f : FileData) (g : Graph)
    (habs : lk g.nodes ("file:" ++ f.rel_path) = none) :
    lk (generic_analyze_file f g).nodes ("file:" ++ f.rel_path) =
      some (genericFileNode f) := by
  unfold generic_analyze_file
  dsimp only
  have hadd : lk (g.add_node (genericFileNode f)).nodes
      ("file:" ++ f.rel_path) = some (genericFileNode f) := by
    rw [lk_add_node, habs]
    dsimp only
    rw [if_pos ⟨rfl, by
      show (lk g.nodes ("file:" ++ f.rel_path)).isNone = true
      rw [habs]
      rfl⟩]
  split
  · exact hadd
  · have heq := nodes_foldl_eq (fun (g' : Graph) (t : String) =>
      g'.add_edge_deferred
        { source := "file:" ++ f.rel_path, target := "module:" ++ t,
          type := "imports" })
      (fun g' a => rfl) f.genImports (g.add_node (genericFileNode f))
    rw [heq]
    exact hadd

theorem lk_generic_analyze_file_other (a : FileData) (g : Graph)
    (k : String) (habs : lk g.nodes k = none)
    (hkid : k ≠ "file:" ++ a.rel_path) :
    lk (generic_analyze_file a g).nodes k = none := by
  unfold generic_analyze_file
  dsimp only
  have hadd : lk (g.add_node (genericFileNode a)).nodes k = none := by
    rw [lk_add_node, habs]
    dsimp only
    rw [if_neg (fun hc => hkid hc.1)]
  split
  · exact hadd
  · have heq := nodes_foldl_eq (fun (g' : Graph) (t : String) =>
      g'.add_edge_deferred
        { source := "file:" ++ a.rel_path, target := "module:" ++ t,
          type := "imports" })
      (fun g' a => rfl) a.genImports (g.add_node (genericFileNode a))
    rw [heq]
    exact hadd

/-- After the generic pass over a duplicate-free file list, every file's
node is present with exactly the generic node's fields. -/
theorem generic_pass_lookup (files : List FileData) (g0 : Graph)
    (f : FileData) (hf : f ∈ files)
    (habs : lk g0.nodes ("file:" ++ f.rel_path) = none)
    (hnd : (files.map (fun x => x.rel_path)).Nodup) :
    lk (files.foldl (fun g x => generic_analyze_file x g) g0).nodes
      ("file:" ++ f.rel_path) = some (genericFileNode f) := by
  induction files generalizing g0 with
  | nil => simp at hf
  | cons a t ih =>
      rw [List.foldl_cons]
      rw [List.map_cons] at hnd
      have hnd' := List.nodup_cons.mp hnd
      rcases List.mem_cons.mp hf with rfl | hmem
      · refine lk_pres_foldl _ ?_ t _ _ _
          (lk_generic_analyze_file_self f g0 habs)
        intro g' x k' v' h'
        exact lk_pres_generic_analyze_file x g' k' v' h'
      · have hne : a.rel_path ≠ f.rel_path := by
          intro hEq
          apply hnd'.1
          rw [hEq]
          exact List.mem_map_of_mem _ hmem
        have habs1 : lk (generic_analyze_file a g0).nodes
            ("file:" ++ f.rel_path) = none := by
          apply lk_generic_analyze_file_other a g0 _ habs
          intro hEq
          exact hne (string_append_left_cancel _ _ _ hEq).symm
        exact ih _ hmem habs1 hnd'.2

/-- C9: for every discovered file (rich- and script-language files
included), the generic pass — which runs before the dedicated extractors —
creates the node `file:<relative path>` typed by the path classifier; that
node, with those exact fields, is still present in the final graph; and a
validated edge whose source is such a file id can only be dropped by
`add_edge` because its *target* is missing, never its source. -/
theorem C9_generic_file_nodes (files : List FileData)
    (hnd : (files.map (fun x => x.rel_path)).Nodup)
    (f : FileData) (hf : f ∈ files) :
    lk (files.foldl (fun g x => generic_analyze_file x g) {}).nodes
        ("file:" ++ f.rel_path) = some (genericFileNode f) ∧
    lk (analyze_repo files).nodes ("file:" ++ f.rel_path) =
      some (genericFileNode f) ∧
    (∀ (g' : Graph) (e : Edge), e.source = "file:" ++ f.rel_path →
      (lk g'.nodes e.source).isSome = true →
      (g'.add_edge e = { g' with edges := g'.edges ++ [e] } ∨
        (lk g'.nodes e.target = none ∧ g'.add_edge e = g'))) := by
  have h1 := generic_pass_lookup files {} f hf rfl hnd
  refine ⟨h1, ?_, ?_⟩
  · show lk (analyze_repo_pre files).nodes ("file:" ++ f.rel_path) =
      some (genericFileNode f)
    unfold analyze_repo_pre
    dsimp only
    have hmid : lk (if (files.filter
        (fun x => PYTHON_EXTENSIONS.contains x.ext)).isEmpty then
          files.foldl (fun g x => generic_analyze_file x g) {}
        else py_resolve_imports
          (files.filter (fun x => PYTHON_EXTENSIONS.contains x.ext))
          ((files.filter (fun x => PYTHON_EXTENSIONS.contains x.ext)).foldl
            (fun g x => python_analyze_file x g)
            (files.foldl (fun g x => generic_analyze_file x g) {}))).nodes
        ("file:" ++ f.rel_path) = some (genericFileNode f) := by
      split
      · exact h1
      · show lk ((files.filter
          (fun x => PYTHON_EXTENSIONS.contains x.ext)).foldl
            (fun g x => python_analyze_file x g)
            (files.foldl (fun g x => generic_analyze_file x g) {})).nodes
          ("file:" ++ f.rel_path) = some (genericFileNode f)
        refine lk_pres_foldl _ ?_ _ _ _ _ h1
        intro g' x k' v' h'
        exact lk_pres_python_analyze_file x g' k' v' h'
    split
    · exact hmid
    · show lk ((files.filter
        (fun x => JS_EXTENSIONS.contains x.ext)).foldl
          (fun g x => js_analyze_file x g) _).nodes
        ("file:" ++ f.rel_path) = some (genericFileNode f)
      refine lk_pres_foldl _ ?_ _ _ _ _ hmid
      intro g' x k' v' h'
      exact lk_pres_js_analyze_file x g' k' v' h'
  · intro g' e hsrc hsome
    by_cases ht : (lk g'.nodes e.target).isSome = true
    · left
      unfold Graph.add_edge
      rw [if_pos (by rw [hsome, ht]; rfl)]
    · right
      have ht' : lk g'.nodes e.target = none := by
        cases hcase : lk g'.nodes e.target with
        | some w => exact absurd (by rw [hcase]; rfl) ht
        | none => rfl
      refine ⟨ht', ?_⟩
      unfold Graph.add_edge
      rw [if_neg (by rw [hsome, ht']; simp)]

/-- C9 witness: in the concrete repository `c5Files`, the script file
`a/y.js` — owned by the dedicated script extractor — still gets its generic
file node, present in the final graph with the classifier's type. -/
theorem C9_witness :
    lk (analyze_repo c5Files).nodes ("file:" ++ "a/y.js") =
      some (genericFileNode
        { rel_path := "a/y.js", name := "y.js", ext := ".js" }) := by
  exact (C9_generic_file_nodes c5Files (by decide)
    { rel_path := "a/y.js", name := "y.js", ext := ".js" } (by decide)).2.1
